import Mathlib

/-!
# spo-to-file: library aggregation and archive serialisation

A shallow embedding of `spotify_get.go`, `zipper.go` and the download handler of
`router.go`.

* The Spotify client (`github.com/zmb3/spotify/v2`) is an external collaborator.
  It is embedded as a record of state transformers `Client σ` over an arbitrary
  remote state `σ`: each method maps the remote state to a reply and a new state.
* Every client call is written to a journal (`World.journal`), so that statements
  about the calls a fetcher makes (how many, with which options, none after an
  error) are statements about a value the embedding computes.
* The Go `for { ... }` loops need not terminate (a provider may hand out pages
  forever).  They are embedded with a `fuel` bound; a run that exhausts it has
  no result (`none`).
* A Go result pair `(v, err)` is a pair of options: `none` is `nil`.
-/

namespace SpoToFile

/-! ## Go errors -/

/-- Go `error` values met by the fetchers: the sentinel `spotify.ErrNoMorePages`,
any other comparable error value, and an error wrapping another one (`Unwrap`). -/
inductive GoError where
  | ErrNoMorePages
  | failure (code : Nat)
  | wrapped (code : Nat) (inner : GoError)
  deriving DecidableEq, Repr

/-- The `errors.Is(err, target)` of the standard library for non-nil, comparable
errors: equal to the target, or wrapping an error that is. -/
def errorsIs : GoError → GoError → Bool
  | .ErrNoMorePages, target => decide (GoError.ErrNoMorePages = target)
  | .failure code, target => decide (GoError.failure code = target)
  | .wrapped code inner, target =>
      decide (GoError.wrapped code inner = target) || errorsIs inner target

/-- The value built by `errors.Join`: a `*joinError` holding the non-nil errors. -/
structure joinError where
  errs : List GoError
  deriving DecidableEq, Repr

/-- The `errors.Join(errs...)` of the standard library: nil when every argument
is nil, otherwise a `joinError` of the non-nil arguments in argument order. -/
def errorsJoin (errs : List (Option GoError)) : Option joinError :=
  let n := (errs.filter Option.isSome).length
  if n = 0 then none else some { errs := errs.filterMap id }

/-- The `errors.Is(err, target)` for the error returned by `errors.Join`: nil is
nothing; a `joinError` is a fresh pointer, never the target itself, and
unwraps to its list, searched in order. -/
def errorsIsJoined : Option joinError → GoError → Bool
  | none, _ => false
  | some j, target => j.errs.any (fun e => errorsIs e target)

/-! ## Data of the Spotify API

Only the fields the program reads are kept; the payload of an item is an
identifier. -/

abbrev ID := Nat

structure PrivateUser where
  ID : ID
  deriving DecidableEq, Repr

structure SavedTrack where
  ID : ID
  deriving DecidableEq, Repr

structure FullArtist where
  ID : ID
  deriving DecidableEq, Repr

structure SimplePlaylist where
  ID : ID
  deriving DecidableEq, Repr

structure FullPlaylist where
  ID : ID
  deriving DecidableEq, Repr

structure PlaylistItem where
  ID : ID
  deriving DecidableEq, Repr

structure SavedAlbum where
  ID : ID
  deriving DecidableEq, Repr

structure FullAlbum where
  ID : ID
  deriving DecidableEq, Repr

structure SimpleTrack where
  ID : ID
  deriving DecidableEq, Repr

/-- The `spotify.SavedTrackPage`: `Next` is the URL of the next page. -/
structure SavedTrackPage where
  Next : String
  Tracks : List SavedTrack
  deriving DecidableEq, Repr

/-- The `spotify.Cursor`. -/
structure Cursor where
  After : String
  deriving DecidableEq, Repr

/-- The `spotify.FullArtistCursorPage`. -/
structure FullArtistCursorPage where
  Cursor : Cursor
  Artists : List FullArtist
  deriving DecidableEq, Repr

/-- The `spotify.SimplePlaylistPage`. -/
structure SimplePlaylistPage where
  Next : String
  Playlists : List SimplePlaylist
  deriving DecidableEq, Repr

/-- The `spotify.PlaylistItemPage`. -/
structure PlaylistItemPage where
  Next : String
  Items : List PlaylistItem
  deriving DecidableEq, Repr

/-- The `spotify.SavedAlbumPage`. -/
structure SavedAlbumPage where
  Next : String
  Albums : List SavedAlbum
  deriving DecidableEq, Repr

/-- The `spotify.SimpleTrackPage`. -/
structure SimpleTrackPage where
  Next : String
  Tracks : List SimpleTrack
  deriving DecidableEq, Repr

structure PlaylistWithTracks where
  FullPlaylist : FullPlaylist
  Items : List PlaylistItem
  deriving DecidableEq, Repr

structure AlbumWithTracks where
  FullAlbum : FullAlbum
  Items : List SimpleTrack
  deriving DecidableEq, Repr

structure SpotifyLibrary where
  User : Option PrivateUser
  Tracks : Option (List SavedTrack)
  Artists : Option (List FullArtist)
  Playlists : Option (List PlaylistWithTracks)
  Albums : Option (List AlbumWithTracks)
  deriving DecidableEq, Repr

/-! ## The client and the journal of its calls -/

/-- A `spotify.RequestOption`. -/
inductive RequestOption where
  | Limit (amount : Nat)
  | After (after : String)
  deriving DecidableEq, Repr

/-- What a client method hands back: a value with a nil error, or an error. -/
inductive Reply (α : Type) where
  | ok (value : α)
  | error (err : GoError)
  deriving DecidableEq, Repr

/-- The error of a reply, nil on success. -/
def Reply.err {α : Type} : Reply α → Option GoError
  | .ok _ => none
  | .error e => some e

/-- The kinds of page `NextPage` is called with. -/
inductive PageKind where
  | savedTracks
  | playlists
  | playlistItems
  | savedAlbums
  | albumTracks
  deriving DecidableEq, Repr

/-- A call of a client method together with the arguments the program passes. -/
inductive Call where
  | CurrentUser
  | CurrentUsersTracks (opts : List RequestOption)
  | CurrentUsersFollowedArtists (opts : List RequestOption)
  | CurrentUsersPlaylists (opts : List RequestOption)
  | CurrentUsersAlbums (opts : List RequestOption)
  | GetPlaylist (id : ID)
  | GetPlaylistItems (id : ID) (opts : List RequestOption)
  | GetAlbum (id : ID)
  | GetAlbumTracks (id : ID) (opts : List RequestOption)
  | NextPage (kind : PageKind)
  deriving DecidableEq, Repr

/-- One journal line: the call made and the error it returned (nil on success). -/
structure Event where
  call : Call
  err : Option GoError
  deriving DecidableEq, Repr

/-- The methods of `*spotify.Client` the program uses, over a remote state `σ`.
Each returns a value with a nil error, or an error (the program reads the value
only after finding the error nil).  `NextPage` is one Go method taking any page
and loading the next page into it; it is split by page type and returns the
page loaded. -/
structure Client (σ : Type) where
  CurrentUser : σ → Reply PrivateUser × σ
  CurrentUsersTracks : List RequestOption → σ → Reply SavedTrackPage × σ
  NextPageSavedTracks : SavedTrackPage → σ → Reply SavedTrackPage × σ
  CurrentUsersFollowedArtists : List RequestOption → σ → Reply FullArtistCursorPage × σ
  CurrentUsersPlaylists : List RequestOption → σ → Reply SimplePlaylistPage × σ
  NextPagePlaylists : SimplePlaylistPage → σ → Reply SimplePlaylistPage × σ
  GetPlaylist : ID → σ → Reply FullPlaylist × σ
  GetPlaylistItems : ID → List RequestOption → σ → Reply PlaylistItemPage × σ
  NextPagePlaylistItems : PlaylistItemPage → σ → Reply PlaylistItemPage × σ
  CurrentUsersAlbums : List RequestOption → σ → Reply SavedAlbumPage × σ
  NextPageSavedAlbums : SavedAlbumPage → σ → Reply SavedAlbumPage × σ
  GetAlbum : ID → σ → Reply FullAlbum × σ
  GetAlbumTracks : ID → List RequestOption → σ → Reply SimpleTrackPage × σ
  NextPageAlbumTracks : SimpleTrackPage → σ → Reply SimpleTrackPage × σ

/-- The remote state together with the journal of the calls made so far, oldest
first. -/
structure World (σ : Type) where
  remote : σ
  journal : List Event

/-- Make one client call: run the method on the remote state and append the call
and its error to the journal. -/
def invoke {σ α : Type} (call : Call) (method : σ → Reply α × σ) (w : World σ) :
    Reply α × World σ :=
  ((method w.remote).1,
    { remote := (method w.remote).2,
      journal := w.journal ++ [{ call := call, err := (method w.remote).1.err }] })

/-- A Go result pair `(value, err)`; `none` is nil. -/
abbrev GoResult (α : Type) := Option α × Option GoError

/-- The outcome of running a Go function: its return value, or `none` when it did
not return (the fuel ran out inside a loop, or the goroutine stopped on a nil
dereference), together with the world the run left behind. -/
abbrev Run (σ R : Type) := Option R × World σ

/-- How a block inside a function body ends: control falls through to the next
statement with the value the block built, or the enclosing function has returned. -/
inductive Flow (α R : Type) where
  | next (value : α)
  | ret (result : R)
  deriving DecidableEq, Repr

/-! ## spotify_get.go -/

namespace spotifyGetter

/-- The loop written out word for word in `SavedTacks`, `completePlaylist` and
`completeAlbum`:
`for { err = NextPage(ctx, page); if errors.Is(err, ErrNoMorePages) { break };
if err != nil { return nil, err }; all = append(all, page.Items...) }`.
`ret err` is the `return nil, err` of the enclosing function and `brk all` is
what that function does after the `break`. -/
def nextPages {σ P α R : Type} (kind : PageKind) (next : P → σ → Reply P × σ)
    (items : P → List α) (ret : GoError → R) (brk : List α → R) :
    Nat → P → List α → World σ → Run σ R
  | 0, _, _, w => (none, w)
  | fuel + 1, page, all, w =>
    match invoke (Call.NextPage kind) (next page) w with
    | (Reply.error err, w1) =>
      if errorsIs err GoError.ErrNoMorePages then (some (brk all), w1)
      else (some (ret err), w1)
    | (Reply.ok page1, w1) =>
      nextPages kind next items ret brk fuel page1 (all ++ items page1) w1

/-- The `spotifyGetter.PrivateUser`: `return s.client.CurrentUser(ctx)`.  The client
returns a nil user with an error, or a user with a nil error. -/
def PrivateUser {σ : Type} (c : Client σ) (w : World σ) : GoResult PrivateUser × World σ :=
  match invoke Call.CurrentUser c.CurrentUser w with
  | (Reply.error err, w1) => ((none, some err), w1)
  | (Reply.ok user, w1) => ((some user, none), w1)

/-- The `spotifyGetter.SavedTacks`. -/
def SavedTacks {σ : Type} (c : Client σ) (fuel : Nat) (w : World σ) :
    Run σ (GoResult (List SavedTrack)) :=
  let allTracks : List SavedTrack := []
  match invoke (Call.CurrentUsersTracks [RequestOption.Limit 50])
      (c.CurrentUsersTracks [RequestOption.Limit 50]) w with
  | (Reply.error err, w1) => (some (none, some err), w1)
  | (Reply.ok tracks, w1) =>
    nextPages PageKind.savedTracks c.NextPageSavedTracks SavedTrackPage.Tracks
      (fun err => (none, some err)) (fun allTracks => (some allTracks, none))
      fuel tracks (allTracks ++ tracks.Tracks) w1

/-- The loop of `spotifyGetter.FollowedArtists`: `after` and `allArtists` are the
loop-carried variables. -/
def followedArtistsLoop {σ : Type} (c : Client σ) :
    Nat → String → List FullArtist → World σ → Run σ (GoResult (List FullArtist))
  | 0, _, _, w => (none, w)
  | fuel + 1, after, allArtists, w =>
    let opts := [RequestOption.Limit 50]
    let opts := if after ≠ "" then opts ++ [RequestOption.After after] else opts
    match invoke (Call.CurrentUsersFollowedArtists opts) (c.CurrentUsersFollowedArtists opts) w with
    | (Reply.error err, w1) => (some (none, some err), w1)
    | (Reply.ok artists, w1) =>
      if artists.Cursor.After = "" then (some (some (allArtists ++ artists.Artists), none), w1)
      else followedArtistsLoop c fuel artists.Cursor.After (allArtists ++ artists.Artists) w1

/-- The `spotifyGetter.FollowedArtists`. -/
def FollowedArtists {σ : Type} (c : Client σ) (fuel : Nat) (w : World σ) :
    Run σ (GoResult (List FullArtist)) :=
  followedArtistsLoop c fuel "" [] w

/-- The `spotifyGetter.completePlaylist`. -/
def completePlaylist {σ : Type} (c : Client σ) (fuel : Nat) (id : ID) (w : World σ) :
    Run σ (GoResult PlaylistWithTracks) :=
  match invoke (Call.GetPlaylist id) (c.GetPlaylist id) w with
  | (Reply.error err, w1) => (some (none, some err), w1)
  | (Reply.ok playlist, w1) =>
    let playlistItems : List PlaylistItem := []
    match invoke (Call.GetPlaylistItems id [RequestOption.Limit 50])
        (c.GetPlaylistItems id [RequestOption.Limit 50]) w1 with
    | (Reply.error err, w2) => (some (none, some err), w2)
    | (Reply.ok items, w2) =>
      nextPages PageKind.playlistItems c.NextPagePlaylistItems PlaylistItemPage.Items
        (fun err => (none, some err))
        (fun playlistItems => (some { FullPlaylist := playlist, Items := playlistItems }, none))
        fuel items (playlistItems ++ items.Items) w2

/-- The `spotifyGetter.completeAlbum`. -/
def completeAlbum {σ : Type} (c : Client σ) (fuel : Nat) (id : ID) (w : World σ) :
    Run σ (GoResult AlbumWithTracks) :=
  match invoke (Call.GetAlbum id) (c.GetAlbum id) w with
  | (Reply.error err, w1) => (some (none, some err), w1)
  | (Reply.ok album, w1) =>
    let albumTracks : List SimpleTrack := []
    match invoke (Call.GetAlbumTracks id [RequestOption.Limit 50])
        (c.GetAlbumTracks id [RequestOption.Limit 50]) w1 with
    | (Reply.error err, w2) => (some (none, some err), w2)
    | (Reply.ok tracks, w2) =>
      nextPages PageKind.albumTracks c.NextPageAlbumTracks SimpleTrackPage.Tracks
        (fun err => (none, some err))
        (fun albumTracks => (some { FullAlbum := album, Items := albumTracks }, none))
        fuel tracks (albumTracks ++ tracks.Tracks) w2

/-- The block written out in `Playlists` and in `SavedAlbums`:
`for _, item := range page.Items { complete, err := s.complete(item.ID);
if err != nil { return nil, err }; all = append(all, *complete) }`.
A nil `complete` with a nil error would stop the goroutine at the dereference:
no return value. -/
def completeRange {σ I C : Type} (complete : I → World σ → Run σ (GoResult C)) :
    List I → List C → World σ → Run σ (Flow (List C) (GoResult (List C)))
  | [], all, w => (some (Flow.next all), w)
  | item :: rest, all, w =>
    match complete item w with
    | (none, w1) => (none, w1)
    | (some (_, some err), w1) => (some (Flow.ret (none, some err)), w1)
    | (some (none, none), w1) => (none, w1)
    | (some (some completed, none), w1) => completeRange complete rest (all ++ [completed]) w1

/-- The outer loop written out in `Playlists` and in `SavedAlbums`: complete the
items of the page at hand, then
`err = NextPage(ctx, page); if errors.Is(err, ErrNoMorePages) { break };
if err != nil { return nil, err }`, and after the loop `return all, nil`. -/
def listingLoop {σ P I C : Type} (kind : PageKind) (next : P → σ → Reply P × σ)
    (items : P → List I) (complete : I → World σ → Run σ (GoResult C)) :
    Nat → P → List C → World σ → Run σ (GoResult (List C))
  | 0, _, _, w => (none, w)
  | fuel + 1, page, all, w =>
    match completeRange complete (items page) all w with
    | (none, w1) => (none, w1)
    | (some (Flow.ret result), w1) => (some result, w1)
    | (some (Flow.next all1), w1) =>
      match invoke (Call.NextPage kind) (next page) w1 with
      | (Reply.error err, w2) =>
        if errorsIs err GoError.ErrNoMorePages then (some (some all1, none), w2)
        else (some (none, some err), w2)
      | (Reply.ok page1, w2) => listingLoop kind next items complete fuel page1 all1 w2

/-- The `spotifyGetter.Playlists`. -/
def Playlists {σ : Type} (c : Client σ) (fuel : Nat) (w : World σ) :
    Run σ (GoResult (List PlaylistWithTracks)) :=
  let allPlaylists : List PlaylistWithTracks := []
  match invoke (Call.CurrentUsersPlaylists [RequestOption.Limit 50])
      (c.CurrentUsersPlaylists [RequestOption.Limit 50]) w with
  | (Reply.error err, w1) => (some (none, some err), w1)
  | (Reply.ok playlists, w1) =>
    listingLoop PageKind.playlists c.NextPagePlaylists SimplePlaylistPage.Playlists
      (fun playlist => completePlaylist c fuel playlist.ID) fuel playlists allPlaylists w1

/-- The `spotifyGetter.SavedAlbums`. -/
def SavedAlbums {σ : Type} (c : Client σ) (fuel : Nat) (w : World σ) :
    Run σ (GoResult (List AlbumWithTracks)) :=
  let allAlbums : List AlbumWithTracks := []
  match invoke (Call.CurrentUsersAlbums [RequestOption.Limit 50])
      (c.CurrentUsersAlbums [RequestOption.Limit 50]) w with
  | (Reply.error err, w1) => (some (none, some err), w1)
  | (Reply.ok albums, w1) =>
    listingLoop PageKind.savedAlbums c.NextPageSavedAlbums SavedAlbumPage.Albums
      (fun album => completeAlbum c fuel album.ID) fuel albums allAlbums w1

end spotifyGetter

/-- The five goroutines `Library` starts, named after the field each one fills. -/
inductive Goroutine where
  | user
  | tracks
  | artists
  | playlists
  | albums
  deriving DecidableEq, Repr

/-- The local variables of `Library` that its goroutines assign. -/
structure LibraryVars where
  library : SpotifyLibrary
  userErr : Option GoError
  tracksErr : Option GoError
  artistsErr : Option GoError
  playlistsErr : Option GoError
  albumsErr : Option GoError
  deriving DecidableEq, Repr

namespace spotifyGetter

/-- The body of each `go func() { ... }()` of `Library`: call the fetcher and
assign its pair to the goroutine's own field and error variable.  The five
fetchers call disjoint client methods; `view g` is the remote as goroutine `g`
meets it.  No value when the fetcher does not return. -/
def goroutine {σ : Type} (c : Client σ) (fuel : Nat) (view : Goroutine → World σ) :
    Goroutine → LibraryVars → Option LibraryVars
  | Goroutine.user, v =>
    let r := (PrivateUser c (view Goroutine.user)).1
    some { v with library := { v.library with User := r.1 }, userErr := r.2 }
  | Goroutine.tracks, v =>
    match (SavedTacks c fuel (view Goroutine.tracks)).1 with
    | none => none
    | some r => some { v with library := { v.library with Tracks := r.1 }, tracksErr := r.2 }
  | Goroutine.artists, v =>
    match (FollowedArtists c fuel (view Goroutine.artists)).1 with
    | none => none
    | some r => some { v with library := { v.library with Artists := r.1 }, artistsErr := r.2 }
  | Goroutine.playlists, v =>
    match (Playlists c fuel (view Goroutine.playlists)).1 with
    | none => none
    | some r => some { v with library := { v.library with Playlists := r.1 }, playlistsErr := r.2 }
  | Goroutine.albums, v =>
    match (SavedAlbums c fuel (view Goroutine.albums)).1 with
    | none => none
    | some r => some { v with library := { v.library with Albums := r.1 }, albumsErr := r.2 }

/-- Run the goroutines to completion in the order `finish`. -/
def runGoroutines {σ : Type} (c : Client σ) (fuel : Nat) (view : Goroutine → World σ) :
    List Goroutine → LibraryVars → Option LibraryVars
  | [], v => some v
  | g :: rest, v =>
    match goroutine c fuel view g v with
    | none => none
    | some v1 => runGoroutines c fuel view rest v1

/-- The `spotifyGetter.Library`: `library := SpotifyLibrary{}` and five nil errors,
the five goroutines, `wg.Wait()`, then
`return &library, errors.Join(userErr, tracksErr, artistsErr, playlistsErr, albumsErr)`.
`finish` lists the five goroutines in the order in which they complete; the
barrier lets `Library` go on once all of them have. -/
def Library {σ : Type} (c : Client σ) (fuel : Nat) (view : Goroutine → World σ)
    (finish : List Goroutine) : Option (Option SpotifyLibrary × Option joinError) :=
  let vars : LibraryVars :=
    { library := { User := none, Tracks := none, Artists := none, Playlists := none,
                   Albums := none },
      userErr := none, tracksErr := none, artistsErr := none, playlistsErr := none,
      albumsErr := none }
  match runGoroutines c fuel view finish vars with
  | none => none
  | some v =>
    some (some v.library,
      errorsJoin [v.userErr, v.tracksErr, v.artistsErr, v.playlistsErr, v.albumsErr])

end spotifyGetter

/-! ## zipper.go -/

/-- A `[]byte` holding text. -/
abbrev Bytes := String

/-- The `encoding/json` collaborator: `json.MarshalIndent(v, pre, indent)` at the
five static types `Json` calls it with. -/
structure JsonEncoder where
  MarshalIndentUser : Option PrivateUser → String → String → Reply Bytes
  MarshalIndentTracks : Option (List SavedTrack) → String → String → Reply Bytes
  MarshalIndentPlaylists : Option (List PlaylistWithTracks) → String → String → Reply Bytes
  MarshalIndentArtists : Option (List FullArtist) → String → String → Reply Bytes
  MarshalIndentAlbums : Option (List AlbumWithTracks) → String → String → Reply Bytes

/-- One entry of an archive: its name and the bytes written to it. -/
structure ZipEntry where
  Name : String
  Data : Bytes
  deriving DecidableEq, Repr

/-- An operation on the archive writer. -/
inductive ZipOp where
  | Create (name : String)
  | Write (data : Bytes)
  | Close
  deriving DecidableEq, Repr

/-- One line of the record of archive operations: the operation and the error it
returned (nil on success). -/
structure ZipEvent where
  op : ZipOp
  err : Option GoError
  deriving DecidableEq, Repr

/-- The state of a `zip.Writer` over its buffer: the entries created so far, in
order of creation, whether the archive has been finalised by `Close`, and the
record of the operations performed on it, oldest first. -/
structure ZipWriter where
  entries : List ZipEntry
  closed : Bool
  ops : List ZipEvent
  deriving DecidableEq, Repr

/-- The `archive/zip` collaborator: which of its operations fail, and how. -/
structure ZipFaults where
  Create : ZipWriter → String → Option GoError
  Write : ZipWriter → Bytes → Option GoError
  Close : ZipWriter → Option GoError

/-- The `zip.NewWriter(buf)` on a new buffer. -/
def zipNewWriter : ZipWriter := { entries := [], closed := false, ops := [] }

/-- The `w.Create(name)`: start a new entry, written to by the `Write` that follows. -/
def zipCreate (z : ZipFaults) (name : String) (zw : ZipWriter) : Option GoError × ZipWriter :=
  match z.Create zw name with
  | some err => (some err, { zw with ops := zw.ops ++ [{ op := ZipOp.Create name, err := some err }] })
  | none =>
    (none, { zw with entries := zw.entries ++ [{ Name := name, Data := "" }],
                     ops := zw.ops ++ [{ op := ZipOp.Create name, err := none }] })

/-- The `f.Write(data)` on the entry created last. -/
def zipWrite (z : ZipFaults) (data : Bytes) (zw : ZipWriter) : Option GoError × ZipWriter :=
  match z.Write zw data with
  | some err => (some err, { zw with ops := zw.ops ++ [{ op := ZipOp.Write data, err := some err }] })
  | none =>
    (none, { zw with
      entries := match zw.entries.getLast? with
        | none => []
        | some e => zw.entries.dropLast ++ [{ e with Data := e.Data ++ data }],
      ops := zw.ops ++ [{ op := ZipOp.Write data, err := none }] })

/-- The `zipW.Close()`. -/
def zipClose (z : ZipFaults) (zw : ZipWriter) : Option GoError × ZipWriter :=
  match z.Close zw with
  | some err => (some err, { zw with ops := zw.ops ++ [{ op := ZipOp.Close, err := some err }] })
  | none => (none, { zw with closed := true, ops := zw.ops ++ [{ op := ZipOp.Close, err := none }] })

/-- The `zipper` struct. -/
structure zipper where
  tracks : Option (List SavedTrack)
  artists : Option (List FullArtist)
  playlists : Option (List PlaylistWithTracks)
  albums : Option (List AlbumWithTracks)
  user : Option PrivateUser
  deriving DecidableEq, Repr

/-- The `NewZipper`. -/
def NewZipper (tracks : Option (List SavedTrack)) (artists : Option (List FullArtist))
    (playlists : Option (List PlaylistWithTracks)) (albums : Option (List AlbumWithTracks))
    (user : Option PrivateUser) : zipper :=
  { tracks := tracks, artists := artists, playlists := playlists, albums := albums, user := user }

/-- What a call of `Json` leaves: the returned pair `(buf, err)`, the buffer being
the archive written into it, and the archive writer as the call left it
(`none` when `zip.NewWriter` was never reached). -/
structure JsonRun where
  buf : Option ZipWriter
  err : Option GoError
  writer : Option ZipWriter
  deriving DecidableEq, Repr

namespace zipper

/-- The `zipper.jsonToZip`. -/
def jsonToZip (z : ZipFaults) (json : Bytes) (w : ZipWriter) (name : String) :
    Option GoError × ZipWriter :=
  match zipCreate z name w with
  | (some err, w1) => (some err, w1)
  | (none, w1) =>
    match zipWrite z json w1 with
    | (some err, w2) => (some err, w2)
    | (none, w2) => (none, w2)

/-- The `zipper.Json`. -/
def Json (enc : JsonEncoder) (zf : ZipFaults) (z : zipper) : JsonRun :=
  match enc.MarshalIndentUser z.user "" "  " with
  | Reply.error err => { buf := none, err := some err, writer := none }
  | Reply.ok userJson =>
  match enc.MarshalIndentTracks z.tracks "" "  " with
  | Reply.error err => { buf := none, err := some err, writer := none }
  | Reply.ok tracksJson =>
  match enc.MarshalIndentPlaylists z.playlists "" "  " with
  | Reply.error err => { buf := none, err := some err, writer := none }
  | Reply.ok playlistsJson =>
  match enc.MarshalIndentArtists z.artists "" "  " with
  | Reply.error err => { buf := none, err := some err, writer := none }
  | Reply.ok artistsJson =>
  match enc.MarshalIndentAlbums z.albums "" "  " with
  | Reply.error err => { buf := none, err := some err, writer := none }
  | Reply.ok albumsJson =>
  let zipW := zipNewWriter
  match jsonToZip zf userJson zipW "user.json" with
  | (some err, zipW) => { buf := none, err := some err, writer := some zipW }
  | (none, zipW) =>
  match jsonToZip zf tracksJson zipW "tracks.json" with
  | (some err, zipW) => { buf := none, err := some err, writer := some zipW }
  | (none, zipW) =>
  match jsonToZip zf playlistsJson zipW "playlists.json" with
  | (some err, zipW) => { buf := none, err := some err, writer := some zipW }
  | (none, zipW) =>
  match jsonToZip zf artistsJson zipW "artists.json" with
  | (some err, zipW) => { buf := none, err := some err, writer := some zipW }
  | (none, zipW) =>
  match jsonToZip zf albumsJson zipW "albums.json" with
  | (some err, zipW) => { buf := none, err := some err, writer := some zipW }
  | (none, zipW) =>
  match zipClose zf zipW with
  | (some err, zipW) => { buf := none, err := some err, writer := some zipW }
  | (none, zipW) => { buf := some zipW, err := none, writer := some zipW }

end zipper

/-! ## router.go -/

/-- What the handler does to its `http.ResponseWriter` and to the log, in order. -/
inductive HttpAction where
  | LogPrintln (err : GoError)
  | Redirect (url : String) (code : Nat)
  | HeaderSet (key : String) (value : String)
  | Write (body : ZipWriter)
  deriving DecidableEq, Repr

/-- How a run of the handler ends: it returns, or it stops the goroutine with a
nil pointer dereference. -/
inductive HandlerEnd where
  | returned
  | nilDereference
  deriving DecidableEq, Repr

/-- A finished run of the handler. -/
structure Handled where
  actions : List HttpAction
  ending : HandlerEnd
  deriving DecidableEq, Repr

/-- The `if err != nil { log.Println(err); http.Redirect(w, r, "/", 500) }` that
follows each call in `downloadJson`; the block has no `return`. -/
def logAndRedirect (err : Option GoError) : List HttpAction :=
  match err with
  | none => []
  | some e => [HttpAction.LogPrintln e, HttpAction.Redirect "/" 500]

namespace router

/-- The `router.downloadJson`.  `cookie` is the value of the request's
`spo-to-file` cookie (`none`: `r.Cookie` fails), `auth` is
`ro.spotifyAuth.Client`, and `writeErr` is the error of the final `w.Write`. -/
def downloadJson {σ : Type} (auth : String → Client σ) (enc : JsonEncoder) (zf : ZipFaults)
    (writeErr : Option GoError) (fuel : Nat) (cookie : Option String) (w : World σ) :
    Run σ Handled :=
  match cookie with
  | none => (some { actions := [], ending := HandlerEnd.returned }, w)
  | some value =>
    let client := auth value
    match spotifyGetter.PrivateUser client w with
    | ((user, err), w) =>
    let acts := logAndRedirect err
    match spotifyGetter.SavedTacks client fuel w with
    | (none, w) => (none, w)
    | (some (tracks, err), w) =>
    let acts := acts ++ logAndRedirect err
    match spotifyGetter.FollowedArtists client fuel w with
    | (none, w) => (none, w)
    | (some (artists, err), w) =>
    let acts := acts ++ logAndRedirect err
    match spotifyGetter.Playlists client fuel w with
    | (none, w) => (none, w)
    | (some (playlists, err), w) =>
    let acts := acts ++ logAndRedirect err
    match spotifyGetter.SavedAlbums client fuel w with
    | (none, w) => (none, w)
    | (some (albums, err), w) =>
    let acts := acts ++ logAndRedirect err
    let zipper := NewZipper tracks artists playlists albums user
    let run := zipper.Json enc zf
    let acts := acts ++ logAndRedirect run.err
    let acts := acts ++ [HttpAction.HeaderSet "Content-Type" "application/zip",
      HttpAction.HeaderSet "Content-Disposition" "attachment; filename=\"library.zip\""]
    match run.buf with
    | none => (some { actions := acts, ending := HandlerEnd.nilDereference }, w)
    | some buf =>
      let acts := acts ++ [HttpAction.Write buf]
      match writeErr with
      | none => (some { actions := acts, ending := HandlerEnd.returned }, w)
      | some e =>
        (some { actions := acts ++ [HttpAction.LogPrintln e], ending := HandlerEnd.returned }, w)

end router

/-! ## What the remote serves

The statements below speak of a collection "delivered in pages `p1..pk`".  These
definitions say what that means for a client: they replay the calls against the
client and compare the replies with the pages expected. -/

/-- Starting from `page` in remote state `s`, the next `NextPage` calls succeed and
load the pages `rest` in turn, and the call after them signals no more pages. -/
def nextPagesServe {σ P : Type} (next : P → σ → Reply P × σ) : P → σ → List P → Prop
  | page, s, [] => ∃ e, (next page s).1 = Reply.error e ∧ errorsIs e GoError.ErrNoMorePages = true
  | page, s, q :: rest => (next page s).1 = Reply.ok q ∧ nextPagesServe next q (next page s).2 rest

/-- The remote state after the `NextPage` calls of `nextPagesServe`. -/
def nextPagesEnd {σ P : Type} (next : P → σ → Reply P × σ) : P → σ → List P → σ
  | page, s, [] => (next page s).2
  | page, s, q :: rest => nextPagesEnd next q (next page s).2 rest

/-- The journal lines of the `NextPage` calls of `nextPagesServe`. -/
def nextPagesEvents {σ P : Type} (kind : PageKind) (next : P → σ → Reply P × σ) :
    P → σ → List P → List Event
  | page, s, [] => [{ call := Call.NextPage kind, err := (next page s).1.err }]
  | page, s, q :: rest =>
    { call := Call.NextPage kind, err := (next page s).1.err } ::
      nextPagesEvents kind next q (next page s).2 rest

/-- The options of the call of `CurrentUsersFollowedArtists` that follows a page
whose cursor was `after` (`""` before the first page). -/
def artistOpts (after : String) : List RequestOption :=
  if after = "" then [RequestOption.Limit 50]
  else [RequestOption.Limit 50, RequestOption.After after]

/-- Asked with the cursor `after`, successive calls of `CurrentUsersFollowedArtists`
return the pages `pages`, each asked with the cursor of the page before; all
but the last carry a non-empty cursor, the last an empty one. -/
def artistsServe {σ : Type} (c : Client σ) : String → σ → List FullArtistCursorPage → Prop
  | _, _, [] => False
  | after, s, [p] =>
    (c.CurrentUsersFollowedArtists (artistOpts after) s).1 = Reply.ok p ∧ p.Cursor.After = ""
  | after, s, p :: q :: rest =>
    (c.CurrentUsersFollowedArtists (artistOpts after) s).1 = Reply.ok p ∧ p.Cursor.After ≠ "" ∧
      artistsServe c p.Cursor.After (c.CurrentUsersFollowedArtists (artistOpts after) s).2
        (q :: rest)

/-- What the remote serves while one listed item is completed: its metadata, the
first page of its track listing and the pages that follow. -/
structure Served (M P : Type) where
  full : M
  first : P
  rest : List P

/-- The remote serves `x` to `completePlaylist id`: `GetPlaylist`, `GetPlaylistItems`
and the `NextPage` calls succeed in turn, ended by the no-more-pages signal. -/
def playlistServed {σ : Type} (c : Client σ) (id : ID) (s : σ)
    (x : Served FullPlaylist PlaylistItemPage) : Prop :=
  (c.GetPlaylist id s).1 = Reply.ok x.full ∧
  (c.GetPlaylistItems id [RequestOption.Limit 50] (c.GetPlaylist id s).2).1 = Reply.ok x.first ∧
  nextPagesServe c.NextPagePlaylistItems x.first
    (c.GetPlaylistItems id [RequestOption.Limit 50] (c.GetPlaylist id s).2).2 x.rest

/-- The remote state after the calls of `playlistServed`. -/
def playlistEnd {σ : Type} (c : Client σ) (id : ID) (s : σ)
    (x : Served FullPlaylist PlaylistItemPage) : σ :=
  nextPagesEnd c.NextPagePlaylistItems x.first
    (c.GetPlaylistItems id [RequestOption.Limit 50] (c.GetPlaylist id s).2).2 x.rest

/-- The entry the statement expects for a playlist served as `x`: the result of
`GetPlaylist` and the items of all pages of `GetPlaylistItems`, in page order. -/
def playlistEntry (x : Served FullPlaylist PlaylistItemPage) : PlaylistWithTracks :=
  { FullPlaylist := x.full, Items := (x.first :: x.rest).flatMap PlaylistItemPage.Items }

/-- The remote serves `x` to `completeAlbum id`. -/
def albumServed {σ : Type} (c : Client σ) (id : ID) (s : σ)
    (x : Served FullAlbum SimpleTrackPage) : Prop :=
  (c.GetAlbum id s).1 = Reply.ok x.full ∧
  (c.GetAlbumTracks id [RequestOption.Limit 50] (c.GetAlbum id s).2).1 = Reply.ok x.first ∧
  nextPagesServe c.NextPageAlbumTracks x.first
    (c.GetAlbumTracks id [RequestOption.Limit 50] (c.GetAlbum id s).2).2 x.rest

/-- The remote state after the calls of `albumServed`. -/
def albumEnd {σ : Type} (c : Client σ) (id : ID) (s : σ)
    (x : Served FullAlbum SimpleTrackPage) : σ :=
  nextPagesEnd c.NextPageAlbumTracks x.first
    (c.GetAlbumTracks id [RequestOption.Limit 50] (c.GetAlbum id s).2).2 x.rest

/-- The entry the statement expects for an album served as `x`. -/
def albumEntry (x : Served FullAlbum SimpleTrackPage) : AlbumWithTracks :=
  { FullAlbum := x.full, Items := (x.first :: x.rest).flatMap SimpleTrackPage.Tracks }

/-- The items of one page are served one after the other: item `i` is served `xs[i]`
in the remote state the item before it left. -/
def rangeServed {σ I X : Type} (served : I → σ → X → Prop) (endOf : I → σ → X → σ) :
    List I → σ → List X → Prop
  | [], _, [] => True
  | item :: items, s, x :: xs =>
    served item s x ∧ rangeServed served endOf items (endOf item s x) xs
  | _, _, _ => False

/-- The remote state after the calls of `rangeServed`. -/
def rangeEnd {σ I X : Type} (endOf : I → σ → X → σ) : List I → σ → List X → σ
  | item :: items, s, x :: xs => rangeEnd endOf items (endOf item s x) xs
  | _, s, _ => s

/-- A listing delivered in pages: the items of `page` are served `xs`; then
`NextPage` loads each further page `q` of `more`, whose items are served the
list paired with it; after the last page `NextPage` signals no more pages. -/
def listingServed {σ P I X : Type} (next : P → σ → Reply P × σ) (items : P → List I)
    (served : I → σ → X → Prop) (endOf : I → σ → X → σ) :
    P → σ → List X → List (P × List X) → Prop
  | page, s, xs, [] =>
    rangeServed served endOf (items page) s xs ∧
    ∃ e, (next page (rangeEnd endOf (items page) s xs)).1 = Reply.error e ∧
      errorsIs e GoError.ErrNoMorePages = true
  | page, s, xs, (q, ys) :: more =>
    rangeServed served endOf (items page) s xs ∧
    (next page (rangeEnd endOf (items page) s xs)).1 = Reply.ok q ∧
    listingServed next items served endOf q
      (next page (rangeEnd endOf (items page) s xs)).2 ys more

/-- Whether the call is a `NextPage` call, the only call whose error the program
tests with `errors.Is(err, ErrNoMorePages)`. -/
def Call.isNextPage : Call → Bool
  | Call.NextPage _ => true
  | _ => false

/-- A journal line of a hard error: a call that returned an error, unless it is a
`NextPage` call whose error satisfies `errors.Is(err, ErrNoMorePages)` (the
no-more-pages signal, which ends a pagination).  Every error of a call other
than `NextPage` is hard. -/
def Event.hard (ev : Event) : Bool :=
  match ev.err with
  | none => false
  | some e => !(ev.call.isNextPage && errorsIs e GoError.ErrNoMorePages)

/-- The journal lines a run added to the journal `before`. -/
def eventsSince (before : List Event) {σ : Type} (after : World σ) : List Event :=
  after.journal.drop before.length

/-- The shape of the journal of a run that aborts on a hard error: the lines `evs`
the run added hold no hard error, or the last line is a hard error `e`, no line
before it is one, and the run returned `fail e`. -/
def Traced {σ R : Type} (fail : GoError → R) (w : World σ) (run : Run σ R) : Prop :=
  ∃ evs, run.2.journal = w.journal ++ evs ∧
    ((∀ x ∈ evs, x.hard = false) ∨
      ∃ pre call e, evs = pre ++ [{ call := call, err := some e }] ∧
        (∀ x ∈ pre, x.hard = false) ∧
        ({ call := call, err := some e } : Event).hard = true ∧
        run.1 = some (fail e))

/-- A hard error aborts the fetch: every call of the run that returned a hard error
`e` (any error of a call other than `NextPage`; an error of `NextPage` for which
`errors.Is(err, ErrNoMorePages)` is false) is the last call of the run, no call
before it returned a hard error, and the run returned a nil collection with `e`. -/
def HardErrorAborts {σ α : Type} (w : World σ) (run : Run σ (GoResult α)) : Prop :=
  ∀ ev ∈ eventsSince w.journal run.2, ∀ e, ev.err = some e →
    (ev.call.isNextPage = false ∨ errorsIs e GoError.ErrNoMorePages = false) →
    run.1 = some (none, some e) ∧
      ∃ pre, eventsSince w.journal run.2 = pre ++ [ev] ∧ ∀ x ∈ pre, x.hard = false

/-- Loading the second page of the saved tracks returns an error that wraps
`ErrNoMorePages` (as a stubbed transport could). -/
def pageWrapsSentinel : Call → Option GoError
  | Call.NextPage PageKind.savedTracks => some (GoError.wrapped 1 GoError.ErrNoMorePages)
  | _ => none

/-- The first listing of the saved tracks returns an error that wraps
`ErrNoMorePages`. -/
def listingWrapsSentinel : Call → Option GoError
  | Call.CurrentUsersTracks _ => some (GoError.wrapped 2 GoError.ErrNoMorePages)
  | _ => none

/-- The second page of a playlist's items cannot be loaded (HTTP 500). -/
def itemsPageBroken : Call → Option GoError
  | Call.NextPage PageKind.playlistItems => some (GoError.failure 500)
  | _ => none

/-- The listings of the saved tracks and of the playlists are refused (HTTP 401,
HTTP 503); every other call is served. -/
def tracksAndPlaylistsRefused : Call → Option GoError
  | Call.CurrentUsersTracks _ => some (GoError.failure 401)
  | Call.CurrentUsersPlaylists _ => some (GoError.failure 503)
  | _ => none

/-- What the five goroutines of `Library` have assigned once all of `finish` have
completed, started from `v`: a field whose goroutine is in `finish` holds the
pair the fetcher returned, every other field is as in `v`. -/
def assigned (user : GoResult PrivateUser) (tracks : GoResult (List SavedTrack))
    (artists : GoResult (List FullArtist)) (playlists : GoResult (List PlaylistWithTracks))
    (albums : GoResult (List AlbumWithTracks)) (finish : List Goroutine) (v : LibraryVars) :
    LibraryVars :=
  { library :=
      { User := if Goroutine.user ∈ finish then user.1 else v.library.User,
        Tracks := if Goroutine.tracks ∈ finish then tracks.1 else v.library.Tracks,
        Artists := if Goroutine.artists ∈ finish then artists.1 else v.library.Artists,
        Playlists := if Goroutine.playlists ∈ finish then playlists.1 else v.library.Playlists,
        Albums := if Goroutine.albums ∈ finish then albums.1 else v.library.Albums },
    userErr := if Goroutine.user ∈ finish then user.2 else v.userErr,
    tracksErr := if Goroutine.tracks ∈ finish then tracks.2 else v.tracksErr,
    artistsErr := if Goroutine.artists ∈ finish then artists.2 else v.artistsErr,
    playlistsErr := if Goroutine.playlists ∈ finish then playlists.2 else v.playlistsErr,
    albumsErr := if Goroutine.albums ∈ finish then albums.2 else v.albumsErr }

/-- A Go result pair in which exactly one of the value and the error is nil. -/
def OneNil {α : Type} (r : GoResult α) : Prop :=
  (∃ a, r = (some a, none)) ∨ (∃ e, r = (none, some e))

/-- The five goroutines of `Library`, in the order in which it starts them. -/
def allGoroutines : List Goroutine :=
  [Goroutine.user, Goroutine.tracks, Goroutine.artists, Goroutine.playlists, Goroutine.albums]

/-- The errors of the five `json.MarshalIndent` calls of `Json`, in the order of the
calls (nil where the document serialises). -/
def marshalErrors (enc : JsonEncoder) (z : zipper) : List (Option GoError) :=
  [(enc.MarshalIndentUser z.user "" "  ").err, (enc.MarshalIndentTracks z.tracks "" "  ").err,
    (enc.MarshalIndentPlaylists z.playlists "" "  ").err,
    (enc.MarshalIndentArtists z.artists "" "  ").err,
    (enc.MarshalIndentAlbums z.albums "" "  ").err]

/-- No operation recorded on the archive writer has failed. -/
def ZipWriter.clean (w : ZipWriter) : Prop := ∀ x ∈ w.ops, x.err = none

/-- The only failure recorded on the archive writer is `e`. -/
def ZipWriter.failedWith (w : ZipWriter) (e : GoError) : Prop :=
  ∀ x ∈ w.ops, ∀ e2, x.err = some e2 → e2 = e

/-! ## A sample remote

A small library used to run the embedding on concrete input: three saved tracks
in two pages, three followed artists in two pages, three playlists in two
pages (playlist 21 has two pages of items), two albums in one page.  The
remote state counts the requests served.  As in the client library, `NextPage`
on a page without a `Next` URL signals `ErrNoMorePages` without a request.
`fault` injects an error into the calls it names. -/

def sampleClient (fault : Call → Option GoError) : Client Nat where
  CurrentUser := fun n =>
    match fault Call.CurrentUser with
    | some e => (Reply.error e, n + 1)
    | none => (Reply.ok { ID := 7 }, n + 1)
  CurrentUsersTracks := fun opts n =>
    match fault (Call.CurrentUsersTracks opts) with
    | some e => (Reply.error e, n + 1)
    | none => (Reply.ok { Next := "tracks?offset=50", Tracks := [{ ID := 1 }, { ID := 2 }] }, n + 1)
  NextPageSavedTracks := fun page n =>
    if page.Next = "" then (Reply.error GoError.ErrNoMorePages, n)
    else match fault (Call.NextPage PageKind.savedTracks) with
      | some e => (Reply.error e, n + 1)
      | none => (Reply.ok { Next := "", Tracks := [{ ID := 3 }] }, n + 1)
  CurrentUsersFollowedArtists := fun opts n =>
    match fault (Call.CurrentUsersFollowedArtists opts) with
    | some e => (Reply.error e, n + 1)
    | none =>
      if opts = [RequestOption.Limit 50, RequestOption.After "a12"] then
        (Reply.ok { Cursor := { After := "" }, Artists := [{ ID := 13 }] }, n + 1)
      else
        (Reply.ok { Cursor := { After := "a12" }, Artists := [{ ID := 11 }, { ID := 12 }] }, n + 1)
  CurrentUsersPlaylists := fun opts n =>
    match fault (Call.CurrentUsersPlaylists opts) with
    | some e => (Reply.error e, n + 1)
    | none =>
      (Reply.ok { Next := "playlists?offset=50", Playlists := [{ ID := 21 }, { ID := 22 }] }, n + 1)
  NextPagePlaylists := fun page n =>
    if page.Next = "" then (Reply.error GoError.ErrNoMorePages, n)
    else match fault (Call.NextPage PageKind.playlists) with
      | some e => (Reply.error e, n + 1)
      | none => (Reply.ok { Next := "", Playlists := [{ ID := 23 }] }, n + 1)
  GetPlaylist := fun id n =>
    match fault (Call.GetPlaylist id) with
    | some e => (Reply.error e, n + 1)
    | none => (Reply.ok { ID := id }, n + 1)
  GetPlaylistItems := fun id opts n =>
    match fault (Call.GetPlaylistItems id opts) with
    | some e => (Reply.error e, n + 1)
    | none =>
      (Reply.ok { Next := if id = 21 then "items?offset=50" else "", Items := [{ ID := id * 10 }] },
        n + 1)
  NextPagePlaylistItems := fun page n =>
    if page.Next = "" then (Reply.error GoError.ErrNoMorePages, n)
    else match fault (Call.NextPage PageKind.playlistItems) with
      | some e => (Reply.error e, n + 1)
      | none => (Reply.ok { Next := "", Items := [{ ID := 999 }] }, n + 1)
  CurrentUsersAlbums := fun opts n =>
    match fault (Call.CurrentUsersAlbums opts) with
    | some e => (Reply.error e, n + 1)
    | none => (Reply.ok { Next := "", Albums := [{ ID := 31 }, { ID := 32 }] }, n + 1)
  NextPageSavedAlbums := fun page n =>
    if page.Next = "" then (Reply.error GoError.ErrNoMorePages, n)
    else match fault (Call.NextPage PageKind.savedAlbums) with
      | some e => (Reply.error e, n + 1)
      | none => (Reply.ok { Next := "", Albums := [] }, n + 1)
  GetAlbum := fun id n =>
    match fault (Call.GetAlbum id) with
    | some e => (Reply.error e, n + 1)
    | none => (Reply.ok { ID := id }, n + 1)
  GetAlbumTracks := fun id opts n =>
    match fault (Call.GetAlbumTracks id opts) with
    | some e => (Reply.error e, n + 1)
    | none =>
      (Reply.ok { Next := if id = 31 then "tracks?offset=50" else "", Tracks := [{ ID := id * 10 }] },
        n + 1)
  NextPageAlbumTracks := fun page n =>
    if page.Next = "" then (Reply.error GoError.ErrNoMorePages, n)
    else match fault (Call.NextPage PageKind.albumTracks) with
      | some e => (Reply.error e, n + 1)
      | none => (Reply.ok { Next := "", Tracks := [{ ID := 888 }] }, n + 1)

/-- No call fails. -/
def noFault : Call → Option GoError := fun _ => none

/-- The listing of the saved tracks is refused (HTTP 401). -/
def tracksRefused : Call → Option GoError
  | Call.CurrentUsersTracks _ => some (GoError.failure 401)
  | _ => none

/-- A world at the start of a request: nothing served, nothing called. -/
def freshWorld : World Nat := { remote := 0, journal := [] }

/-- A stand-in for `encoding/json`: nil serialises to `null`, any other value to a
fixed text. -/
def sampleEncoder : JsonEncoder where
  MarshalIndentUser := fun v _ _ => Reply.ok (match v with | none => "null" | some _ => "(user)")
  MarshalIndentTracks := fun v _ _ => Reply.ok (match v with | none => "null" | some _ => "(tracks)")
  MarshalIndentPlaylists := fun v _ _ =>
    Reply.ok (match v with | none => "null" | some _ => "(playlists)")
  MarshalIndentArtists := fun v _ _ =>
    Reply.ok (match v with | none => "null" | some _ => "(artists)")
  MarshalIndentAlbums := fun v _ _ => Reply.ok (match v with | none => "null" | some _ => "(albums)")

/-- An encoder that cannot serialise the playlists. -/
def playlistsUnencodable : JsonEncoder :=
  { sampleEncoder with MarshalIndentPlaylists := fun _ _ _ => Reply.error (GoError.failure 1) }

/-- No archive operation fails. -/
def noZipFault : ZipFaults where
  Create := fun _ _ => none
  Write := fun _ _ => none
  Close := fun _ => none

/-- The archive cannot be finalised. -/
def closeFails : ZipFaults where
  Create := fun _ _ => none
  Write := fun _ _ => none
  Close := fun _ => some (GoError.failure 2)

/-- A snapshot split into the fields of a `zipper`: one track, no artists (an
empty, non-nil list), nil playlists, one album, a user. -/
def sampleZipper : zipper :=
  NewZipper (some [{ ID := 1 }]) (some []) none
    (some [{ FullAlbum := { ID := 31 }, Items := [{ ID := 310 }] }]) (some { ID := 7 })

/-! ## Pagination: the whole collection, in order -/

section Pagination

variable {σ P α R : Type}

theorem nextPages_served (kind : PageKind) (next : P → σ → Reply P × σ) (items : P → List α)
    (ret : GoError → R) (brk : List α → R) :
    ∀ (rest : List P) (fuel : Nat) (page : P) (all : List α) (w : World σ),
      nextPagesServe next page w.remote rest → rest.length < fuel →
      spotifyGetter.nextPages kind next items ret brk fuel page all w =
        (some (brk (all ++ rest.flatMap items)),
          { remote := nextPagesEnd next page w.remote rest,
            journal := w.journal ++ nextPagesEvents kind next page w.remote rest }) := by
  intro rest
  induction rest with
  | nil =>
    intro fuel page all w hserve hfuel
    obtain ⟨e, he, hno⟩ := hserve
    cases fuel with
    | zero => simp at hfuel
    | succ fuel =>
      simp [spotifyGetter.nextPages, invoke, he, hno, nextPagesEnd, nextPagesEvents, Reply.err]
  | cons q rest ih =>
    intro fuel page all w hserve hfuel
    obtain ⟨hq, hrest⟩ := hserve
    cases fuel with
    | zero => simp at hfuel
    | succ fuel =>
      have hlen : rest.length < fuel := by simpa using hfuel
      have := ih fuel q (all ++ items q)
        { remote := (next page w.remote).2,
          journal := w.journal ++ [{ call := Call.NextPage kind, err := (next page w.remote).1.err }] }
        hrest hlen
      simp [spotifyGetter.nextPages, invoke, hq, nextPagesEnd, nextPagesEvents, Reply.err] at this ⊢
      simpa [hq, Reply.err] using this

theorem nextPagesEvents_calls (kind : PageKind) (next : P → σ → Reply P × σ) :
    ∀ (rest : List P) (page : P) (s : σ),
      (nextPagesEvents kind next page s rest).map Event.call =
        List.replicate (rest.length + 1) (Call.NextPage kind) := by
  intro rest
  induction rest with
  | nil => intro page s; simp [nextPagesEvents]
  | cons q rest ih =>
    intro page s
    simp [nextPagesEvents, ih, List.replicate_succ]

theorem SavedTacks_served {σ : Type} (c : Client σ) (w : World σ) (fuel : Nat)
    (p1 : SavedTrackPage) (rest : List SavedTrackPage)
    (hfirst : (c.CurrentUsersTracks [RequestOption.Limit 50] w.remote).1 = Reply.ok p1)
    (hrest : nextPagesServe c.NextPageSavedTracks p1
      (c.CurrentUsersTracks [RequestOption.Limit 50] w.remote).2 rest)
    (hfuel : rest.length < fuel) :
    spotifyGetter.SavedTacks c fuel w =
      (some (some ((p1 :: rest).flatMap SavedTrackPage.Tracks), none),
        { remote := nextPagesEnd c.NextPageSavedTracks p1
            (c.CurrentUsersTracks [RequestOption.Limit 50] w.remote).2 rest,
          journal := w.journal ++
            { call := Call.CurrentUsersTracks [RequestOption.Limit 50], err := none } ::
              nextPagesEvents PageKind.savedTracks c.NextPageSavedTracks p1
                (c.CurrentUsersTracks [RequestOption.Limit 50] w.remote).2 rest }) := by
  have h := nextPages_served PageKind.savedTracks c.NextPageSavedTracks SavedTrackPage.Tracks
    (fun err => ((none, some err) : GoResult (List SavedTrack)))
    (fun allTracks => (some allTracks, none)) rest fuel p1 ([] ++ p1.Tracks)
    { remote := (c.CurrentUsersTracks [RequestOption.Limit 50] w.remote).2,
      journal := w.journal ++
        [{ call := Call.CurrentUsersTracks [RequestOption.Limit 50], err := none }] }
    hrest hfuel
  simp only [spotifyGetter.SavedTacks, invoke, hfirst, Reply.err]
  rw [h]
  simp

/-- Claim C1. `SavedTacks` returns the whole collection in provider order: when
`CurrentUsersTracks` returns `p1`, the following `NextPage` calls load the pages
`rest` in turn and the call after them signals no more pages, `SavedTacks`
returns the tracks of `p1 :: rest` concatenated in page order, with a nil error. -/
theorem SavedTacks_whole_collection {σ : Type} (c : Client σ) (w : World σ) (fuel : Nat)
    (p1 : SavedTrackPage) (rest : List SavedTrackPage)
    (hfirst : (c.CurrentUsersTracks [RequestOption.Limit 50] w.remote).1 = Reply.ok p1)
    (hrest : nextPagesServe c.NextPageSavedTracks p1
      (c.CurrentUsersTracks [RequestOption.Limit 50] w.remote).2 rest)
    (hfuel : rest.length < fuel) :
    (spotifyGetter.SavedTacks c fuel w).1 =
      some (some ((p1 :: rest).flatMap SavedTrackPage.Tracks), none) := by
  rw [SavedTacks_served c w fuel p1 rest hfirst hrest hfuel]

theorem SavedTacks_whole_collection_witness :
    (spotifyGetter.SavedTacks (sampleClient noFault) 5 freshWorld).1 =
      some (some [{ ID := 1 }, { ID := 2 }, { ID := 3 }], none) :=
  SavedTacks_whole_collection (sampleClient noFault) freshWorld 5
    { Next := "tracks?offset=50", Tracks := [{ ID := 1 }, { ID := 2 }] }
    [{ Next := "", Tracks := [{ ID := 3 }] }] rfl ⟨rfl, GoError.ErrNoMorePages, rfl, rfl⟩
    (by decide)

theorem eventsSince_append {σ : Type} (before evs : List Event) (s : σ) :
    eventsSince before ({ remote := s, journal := before ++ evs } : World σ) = evs := by
  simp [eventsSince]

theorem artistOpts_eq (after : String) :
    (if after ≠ "" then [RequestOption.Limit 50] ++ [RequestOption.After after]
      else [RequestOption.Limit 50]) = artistOpts after := by
  unfold artistOpts
  by_cases h : after = "" <;> simp [h]

theorem followedArtistsLoop_served {σ : Type} (c : Client σ) :
    ∀ (pages : List FullArtistCursorPage) (fuel : Nat) (after : String) (all : List FullArtist)
      (w : World σ),
      artistsServe c after w.remote pages → pages.length ≤ fuel →
      (spotifyGetter.followedArtistsLoop c fuel after all w).1 =
          some (some (all ++ pages.flatMap FullArtistCursorPage.Artists), none) ∧
        (spotifyGetter.followedArtistsLoop c fuel after all w).2.journal =
          w.journal ++
            ({ call := Call.CurrentUsersFollowedArtists (artistOpts after), err := none } ::
              pages.dropLast.map (fun p =>
                { call := Call.CurrentUsersFollowedArtists
                    [RequestOption.Limit 50, RequestOption.After p.Cursor.After],
                  err := none })) := by
  intro pages
  induction pages with
  | nil => intro fuel after all w hserve; simp [artistsServe] at hserve
  | cons p rest ih =>
    intro fuel after all w hserve hfuel
    cases fuel with
    | zero => simp at hfuel
    | succ fuel =>
      cases rest with
      | nil =>
        obtain ⟨hp, hafter⟩ := hserve
        simp only [spotifyGetter.followedArtistsLoop, invoke, artistOpts_eq, hp, Reply.err,
          if_pos hafter]
        simp
      | cons q rest =>
        obtain ⟨hp, hafter, hrest⟩ := hserve
        have hlen : (q :: rest).length ≤ fuel := by simpa using hfuel
        have h := ih fuel p.Cursor.After (all ++ p.Artists)
          { remote := (c.CurrentUsersFollowedArtists (artistOpts after) w.remote).2,
            journal := w.journal ++
              [{ call := Call.CurrentUsersFollowedArtists (artistOpts after), err := none }] }
          hrest hlen
        have hopts : artistOpts p.Cursor.After =
            [RequestOption.Limit 50, RequestOption.After p.Cursor.After] := by
          simp [artistOpts, hafter]
        rw [hopts] at h
        simp only [spotifyGetter.followedArtistsLoop, invoke, artistOpts_eq, hp, Reply.err,
          if_neg hafter]
        refine ⟨?_, ?_⟩
        · rw [h.1]; simp
        · rw [h.2]; simp

/-- Claim C2. `FollowedArtists` follows the cursor until it is empty: when successive
calls of `CurrentUsersFollowedArtists` return the pages `pages` (at least one),
all but the last with a non-empty `Cursor.After` and the last with an empty
one, `FollowedArtists` returns the artists of all pages concatenated in page
order, with a nil error; its first call passes `Limit(50)` alone, its call
number `i + 1` passes `After` of the cursor of page `i`, and it makes one call
per page, none after the page whose cursor is empty. -/
theorem FollowedArtists_follows_cursor {σ : Type} (c : Client σ) (w : World σ) (fuel : Nat)
    (pages : List FullArtistCursorPage)
    (hserve : artistsServe c "" w.remote pages) (hfuel : pages.length ≤ fuel) :
    (spotifyGetter.FollowedArtists c fuel w).1 =
        some (some (pages.flatMap FullArtistCursorPage.Artists), none) ∧
      (eventsSince w.journal (spotifyGetter.FollowedArtists c fuel w).2).map Event.call =
        Call.CurrentUsersFollowedArtists [RequestOption.Limit 50] ::
          pages.dropLast.map (fun p =>
            Call.CurrentUsersFollowedArtists
              [RequestOption.Limit 50, RequestOption.After p.Cursor.After]) := by
  have h := followedArtistsLoop_served c pages fuel "" [] w hserve hfuel
  refine ⟨by simpa [spotifyGetter.FollowedArtists] using h.1, ?_⟩
  unfold eventsSince spotifyGetter.FollowedArtists
  rw [h.2]
  simp [artistOpts, Function.comp_def]

theorem FollowedArtists_follows_cursor_witness :
    (spotifyGetter.FollowedArtists (sampleClient noFault) 5 freshWorld).1 =
        some (some [{ ID := 11 }, { ID := 12 }, { ID := 13 }], none) ∧
      (eventsSince freshWorld.journal
          (spotifyGetter.FollowedArtists (sampleClient noFault) 5 freshWorld).2).map Event.call =
        [Call.CurrentUsersFollowedArtists [RequestOption.Limit 50],
          Call.CurrentUsersFollowedArtists [RequestOption.Limit 50, RequestOption.After "a12"]] :=
  FollowedArtists_follows_cursor (sampleClient noFault) freshWorld 5
    [{ Cursor := { After := "a12" }, Artists := [{ ID := 11 }, { ID := 12 }] },
      { Cursor := { After := "" }, Artists := [{ ID := 13 }] }]
    ⟨rfl, by decide, rfl, rfl⟩ (by decide)

/-- Claim C10 as stated fails for `FollowedArtists`: the sample remote delivers the
followed artists in `k = 2` pages, the second with an empty cursor;
`FollowedArtists` makes 2 calls of `CurrentUsersFollowedArtists`, not `k + 1 = 3`:
the empty cursor of the last page ends the loop without a further call. -/
theorem FollowedArtists_calls_not_pages_plus_one :
    artistsServe (sampleClient noFault) "" freshWorld.remote
        [{ Cursor := { After := "a12" }, Artists := [{ ID := 11 }, { ID := 12 }] },
          { Cursor := { After := "" }, Artists := [{ ID := 13 }] }] ∧
      (eventsSince freshWorld.journal
          (spotifyGetter.FollowedArtists (sampleClient noFault) 5 freshWorld).2).length = 2 ∧
      ¬ (eventsSince freshWorld.journal
          (spotifyGetter.FollowedArtists (sampleClient noFault) 5 freshWorld).2).length = 2 + 1 :=
  ⟨⟨rfl, by decide, rfl, rfl⟩, by decide, by decide⟩

/-- Claim C10, amended: on a collection delivered in `k ≥ 1` pages, `SavedTacks` makes
exactly `k + 1` page-fetch calls (one `CurrentUsersTracks`, then `k` calls of
`NextPage`, the last of which is the terminal check), and `FollowedArtists` makes
exactly `k` calls of `CurrentUsersFollowedArtists` (the empty cursor of page `k`
ends the loop; there is no terminal check). -/
theorem page_fetch_calls {σ : Type} (c : Client σ) (w : World σ) (fuel : Nat) :
    (∀ (p1 : SavedTrackPage) (rest : List SavedTrackPage),
      (c.CurrentUsersTracks [RequestOption.Limit 50] w.remote).1 = Reply.ok p1 →
      nextPagesServe c.NextPageSavedTracks p1
        (c.CurrentUsersTracks [RequestOption.Limit 50] w.remote).2 rest →
      rest.length < fuel →
      (eventsSince w.journal (spotifyGetter.SavedTacks c fuel w).2).map Event.call =
          Call.CurrentUsersTracks [RequestOption.Limit 50] ::
            List.replicate (p1 :: rest).length (Call.NextPage PageKind.savedTracks) ∧
        (eventsSince w.journal (spotifyGetter.SavedTacks c fuel w).2).length =
          (p1 :: rest).length + 1) ∧
    (∀ (pages : List FullArtistCursorPage),
      artistsServe c "" w.remote pages → pages.length ≤ fuel →
      (eventsSince w.journal (spotifyGetter.FollowedArtists c fuel w).2).length = pages.length ∧
        ∀ ev ∈ eventsSince w.journal (spotifyGetter.FollowedArtists c fuel w).2,
          ∃ opts, ev.call = Call.CurrentUsersFollowedArtists opts) := by
  refine ⟨?_, ?_⟩
  · intro p1 rest hfirst hrest hfuel
    have hcalls := nextPagesEvents_calls PageKind.savedTracks c.NextPageSavedTracks rest p1
      (c.CurrentUsersTracks [RequestOption.Limit 50] w.remote).2
    have hlen := congrArg List.length hcalls
    rw [SavedTacks_served c w fuel p1 rest hfirst hrest hfuel, eventsSince_append]
    simp only [List.length_map, List.length_replicate] at hlen
    simp [hcalls, hlen]
  · intro pages hserve hfuel
    have h := (followedArtistsLoop_served c pages fuel "" [] w hserve hfuel).2
    have hne : pages ≠ [] := by
      intro hnil
      rw [hnil] at hserve
      simp [artistsServe] at hserve
    have hpos : 0 < pages.length := List.length_pos.mpr hne
    unfold eventsSince spotifyGetter.FollowedArtists
    rw [h]
    refine ⟨?_, ?_⟩
    · simp; omega
    · intro ev hev
      simp only [List.drop_left, List.mem_cons, List.mem_map] at hev
      rcases hev with rfl | ⟨p, _, rfl⟩
      · exact ⟨_, rfl⟩
      · exact ⟨_, rfl⟩

theorem page_fetch_calls_witness :
    (eventsSince freshWorld.journal
        (spotifyGetter.SavedTacks (sampleClient noFault) 5 freshWorld).2).length = 2 + 1 ∧
      (eventsSince freshWorld.journal
        (spotifyGetter.FollowedArtists (sampleClient noFault) 5 freshWorld).2).length = 2 :=
  ⟨((page_fetch_calls (sampleClient noFault) freshWorld 5).1
      { Next := "tracks?offset=50", Tracks := [{ ID := 1 }, { ID := 2 }] }
      [{ Next := "", Tracks := [{ ID := 3 }] }] rfl ⟨rfl, GoError.ErrNoMorePages, rfl, rfl⟩
      (by decide)).2,
    ((page_fetch_calls (sampleClient noFault) freshWorld 5).2
      [{ Cursor := { After := "a12" }, Artists := [{ ID := 11 }, { ID := 12 }] },
        { Cursor := { After := "" }, Artists := [{ ID := 13 }] }]
      ⟨rfl, by decide, rfl, rfl⟩ (by decide)).1⟩

end Pagination

/-! ## Nested completion of playlists and albums -/

section Completion

variable {σ P I C X : Type}

theorem completePlaylist_served (c : Client σ) (fuel : Nat) (id : ID) (w : World σ)
    (x : Served FullPlaylist PlaylistItemPage)
    (hserved : playlistServed c id w.remote x) (hfuel : x.rest.length < fuel) :
    (spotifyGetter.completePlaylist c fuel id w).1 = some (some (playlistEntry x), none) ∧
      (spotifyGetter.completePlaylist c fuel id w).2.remote = playlistEnd c id w.remote x := by
  obtain ⟨hfull, hfirst, hrest⟩ := hserved
  have h := nextPages_served PageKind.playlistItems c.NextPagePlaylistItems
    PlaylistItemPage.Items (fun err => ((none, some err) : GoResult PlaylistWithTracks))
    (fun playlistItems => (some { FullPlaylist := x.full, Items := playlistItems }, none))
    x.rest fuel x.first ([] ++ x.first.Items)
    { remote := (c.GetPlaylistItems id [RequestOption.Limit 50] (c.GetPlaylist id w.remote).2).2,
      journal := (w.journal ++ [{ call := Call.GetPlaylist id, err := none }]) ++
        [{ call := Call.GetPlaylistItems id [RequestOption.Limit 50], err := none }] }
    hrest hfuel
  simp only [spotifyGetter.completePlaylist, invoke, hfull, hfirst, Reply.err]
  rw [h]
  simp [playlistEntry, playlistEnd]

theorem completeAlbum_served (c : Client σ) (fuel : Nat) (id : ID) (w : World σ)
    (x : Served FullAlbum SimpleTrackPage)
    (hserved : albumServed c id w.remote x) (hfuel : x.rest.length < fuel) :
    (spotifyGetter.completeAlbum c fuel id w).1 = some (some (albumEntry x), none) ∧
      (spotifyGetter.completeAlbum c fuel id w).2.remote = albumEnd c id w.remote x := by
  obtain ⟨hfull, hfirst, hrest⟩ := hserved
  have h := nextPages_served PageKind.albumTracks c.NextPageAlbumTracks
    SimpleTrackPage.Tracks (fun err => ((none, some err) : GoResult AlbumWithTracks))
    (fun albumTracks => (some { FullAlbum := x.full, Items := albumTracks }, none))
    x.rest fuel x.first ([] ++ x.first.Tracks)
    { remote := (c.GetAlbumTracks id [RequestOption.Limit 50] (c.GetAlbum id w.remote).2).2,
      journal := (w.journal ++ [{ call := Call.GetAlbum id, err := none }]) ++
        [{ call := Call.GetAlbumTracks id [RequestOption.Limit 50], err := none }] }
    hrest hfuel
  simp only [spotifyGetter.completeAlbum, invoke, hfull, hfirst, Reply.err]
  rw [h]
  simp [albumEntry, albumEnd]

theorem completeRange_served (complete : I → World σ → Run σ (GoResult C))
    (served : I → σ → X → Prop) (endOf : I → σ → X → σ) (good : X → Prop) (out : X → C)
    (hcomplete : ∀ (item : I) (w : World σ) (x : X), served item w.remote x → good x →
      (complete item w).1 = some (some (out x), none) ∧
        (complete item w).2.remote = endOf item w.remote x) :
    ∀ (items : List I) (xs : List X) (all : List C) (w : World σ),
      rangeServed served endOf items w.remote xs → (∀ x ∈ xs, good x) →
      (spotifyGetter.completeRange complete items all w).1 = some (Flow.next (all ++ xs.map out)) ∧
        (spotifyGetter.completeRange complete items all w).2.remote =
          rangeEnd endOf items w.remote xs := by
  intro items
  induction items with
  | nil =>
    intro xs all w hserved _
    cases xs with
    | nil => simp [spotifyGetter.completeRange, rangeEnd]
    | cons x xs => simp [rangeServed] at hserved
  | cons item items ih =>
    intro xs all w hserved hgood
    cases xs with
    | nil => simp [rangeServed] at hserved
    | cons x xs =>
      obtain ⟨hx, hxs⟩ := hserved
      obtain ⟨hres, hrem⟩ := hcomplete item w x hx (hgood x (List.mem_cons_self x xs))
      have hrun : complete item w = (some (some (out x), none), (complete item w).2) :=
        Prod.ext hres rfl
      rw [← hrem] at hxs
      have h := ih xs (all ++ [out x]) (complete item w).2 hxs
        (fun y hy => hgood y (List.mem_cons_of_mem x hy))
      unfold spotifyGetter.completeRange
      rw [hrun]
      simp only [rangeEnd]
      rw [← hrem]
      simpa using h

theorem listingLoop_served (kind : PageKind) (next : P → σ → Reply P × σ) (items : P → List I)
    (complete : I → World σ → Run σ (GoResult C))
    (served : I → σ → X → Prop) (endOf : I → σ → X → σ) (good : X → Prop) (out : X → C)
    (hcomplete : ∀ (item : I) (w : World σ) (x : X), served item w.remote x → good x →
      (complete item w).1 = some (some (out x), none) ∧
        (complete item w).2.remote = endOf item w.remote x) :
    ∀ (more : List (P × List X)) (fuel : Nat) (page : P) (xs : List X) (all : List C)
      (w : World σ),
      listingServed next items served endOf page w.remote xs more → more.length < fuel →
      (∀ x ∈ xs, good x) → (∀ q ∈ more, ∀ x ∈ q.2, good x) →
      (spotifyGetter.listingLoop kind next items complete fuel page all w).1 =
        some (some (all ++ (xs ++ more.flatMap Prod.snd).map out), none) := by
  intro more
  induction more with
  | nil =>
    intro fuel page xs all w hserved hfuel hgood _
    obtain ⟨hrange, e, he, hno⟩ := hserved
    obtain ⟨hres, hrem⟩ :=
      completeRange_served complete served endOf good out hcomplete (items page) xs all w
        hrange hgood
    have hrun : spotifyGetter.completeRange complete (items page) all w =
        (some (Flow.next (all ++ xs.map out)),
          (spotifyGetter.completeRange complete (items page) all w).2) := Prod.ext hres rfl
    cases fuel with
    | zero => simp at hfuel
    | succ fuel =>
      unfold spotifyGetter.listingLoop
      rw [hrun]
      simp only [invoke, hrem, he, hno]
      simp
  | cons q more ih =>
    intro fuel page xs all w hserved hfuel hgood hmore
    obtain ⟨hrange, hq, hrest⟩ := hserved
    obtain ⟨hres, hrem⟩ :=
      completeRange_served complete served endOf good out hcomplete (items page) xs all w
        hrange hgood
    have hrun : spotifyGetter.completeRange complete (items page) all w =
        (some (Flow.next (all ++ xs.map out)),
          (spotifyGetter.completeRange complete (items page) all w).2) := Prod.ext hres rfl
    cases fuel with
    | zero => simp at hfuel
    | succ fuel =>
      have hlen : more.length < fuel := by simpa using hfuel
      have h := ih fuel q.1 q.2 (all ++ xs.map out)
        { remote := (next page (rangeEnd endOf (items page) w.remote xs)).2,
          journal := (spotifyGetter.completeRange complete (items page) all w).2.journal ++
            [{ call := Call.NextPage kind, err := none }] }
        hrest hlen (hmore q (List.mem_cons_self q more))
        (fun r hr => hmore r (List.mem_cons_of_mem q hr))
      unfold spotifyGetter.listingLoop
      rw [hrun]
      simp only [invoke, hrem, hq, Reply.err]
      rw [h]
      simp

theorem rangeServed_forall₂ (served : I → σ → X → Prop) (endOf : I → σ → X → σ) :
    ∀ (items : List I) (s : σ) (xs : List X), rangeServed served endOf items s xs →
      List.Forall₂ (fun item x => ∃ s, served item s x) items xs := by
  intro items
  induction items with
  | nil =>
    intro s xs h
    cases xs with
    | nil => exact List.Forall₂.nil
    | cons x xs => simp [rangeServed] at h
  | cons item items ih =>
    intro s xs h
    cases xs with
    | nil => simp [rangeServed] at h
    | cons x xs => exact List.Forall₂.cons ⟨s, h.1⟩ (ih _ xs h.2)

theorem listingServed_forall₂ (next : P → σ → Reply P × σ) (items : P → List I)
    (served : I → σ → X → Prop) (endOf : I → σ → X → σ) :
    ∀ (more : List (P × List X)) (page : P) (s : σ) (xs : List X),
      listingServed next items served endOf page s xs more →
      List.Forall₂ (fun item x => ∃ s, served item s x)
        (items page ++ more.flatMap (fun q => items q.1)) (xs ++ more.flatMap Prod.snd) := by
  intro more
  induction more with
  | nil =>
    intro page s xs h
    simpa using rangeServed_forall₂ served endOf (items page) s xs h.1
  | cons q more ih =>
    intro page s xs h
    obtain ⟨hrange, _, hrest⟩ := h
    have h1 := rangeServed_forall₂ served endOf (items page) s xs hrange
    have h2 := ih q.1 _ q.2 hrest
    simpa using List.rel_append h1 h2

/-- Claim C3. `Playlists` completes every listed playlist, in order: when the listing
comes in the pages `P1 :: more.map Prod.fst` ended by the no-more-pages signal
and every call made while completing a playlist succeeds, `Playlists` returns,
with a nil error, one entry per listed playlist, in listing order; the entry
of a playlist holds the result of `GetPlaylist` for its ID and the items of all
pages of `GetPlaylistItems` for its ID, in page order.  `SavedAlbums` does the
same with `GetAlbum` and `GetAlbumTracks`. -/
theorem Playlists_completes_every_item {σ : Type} (c : Client σ) (w : World σ) (fuel : Nat) :
    (∀ (P1 : SimplePlaylistPage) (xs : List (Served FullPlaylist PlaylistItemPage))
        (more : List (SimplePlaylistPage × List (Served FullPlaylist PlaylistItemPage))),
      (c.CurrentUsersPlaylists [RequestOption.Limit 50] w.remote).1 = Reply.ok P1 →
      listingServed c.NextPagePlaylists SimplePlaylistPage.Playlists
        (fun playlist s x => playlistServed c playlist.ID s x)
        (fun playlist s x => playlistEnd c playlist.ID s x) P1
        (c.CurrentUsersPlaylists [RequestOption.Limit 50] w.remote).2 xs more →
      more.length < fuel →
      (∀ x ∈ xs ++ more.flatMap Prod.snd, x.rest.length < fuel) →
      (spotifyGetter.Playlists c fuel w).1 =
          some (some ((xs ++ more.flatMap Prod.snd).map playlistEntry), none) ∧
        List.Forall₂ (fun (playlist : SimplePlaylist) x => ∃ s, playlistServed c playlist.ID s x)
          (P1.Playlists ++ more.flatMap (fun q => q.1.Playlists))
          (xs ++ more.flatMap Prod.snd)) ∧
    (∀ (P1 : SavedAlbumPage) (xs : List (Served FullAlbum SimpleTrackPage))
        (more : List (SavedAlbumPage × List (Served FullAlbum SimpleTrackPage))),
      (c.CurrentUsersAlbums [RequestOption.Limit 50] w.remote).1 = Reply.ok P1 →
      listingServed c.NextPageSavedAlbums SavedAlbumPage.Albums
        (fun album s x => albumServed c album.ID s x)
        (fun album s x => albumEnd c album.ID s x) P1
        (c.CurrentUsersAlbums [RequestOption.Limit 50] w.remote).2 xs more →
      more.length < fuel →
      (∀ x ∈ xs ++ more.flatMap Prod.snd, x.rest.length < fuel) →
      (spotifyGetter.SavedAlbums c fuel w).1 =
          some (some ((xs ++ more.flatMap Prod.snd).map albumEntry), none) ∧
        List.Forall₂ (fun (album : SavedAlbum) x => ∃ s, albumServed c album.ID s x)
          (P1.Albums ++ more.flatMap (fun q => q.1.Albums))
          (xs ++ more.flatMap Prod.snd)) := by
  refine ⟨?_, ?_⟩
  · intro P1 xs more hfirst hserved hlen hgood
    refine ⟨?_, listingServed_forall₂ _ _ _ _ more P1 _ xs hserved⟩
    have h := listingLoop_served PageKind.playlists c.NextPagePlaylists
      SimplePlaylistPage.Playlists (fun playlist => spotifyGetter.completePlaylist c fuel playlist.ID)
      (fun playlist s x => playlistServed c playlist.ID s x)
      (fun playlist s x => playlistEnd c playlist.ID s x)
      (fun x => x.rest.length < fuel) playlistEntry
      (fun item w x hx hg => completePlaylist_served c fuel item.ID w x hx hg)
      more fuel P1 xs []
      { remote := (c.CurrentUsersPlaylists [RequestOption.Limit 50] w.remote).2,
        journal := w.journal ++
          [{ call := Call.CurrentUsersPlaylists [RequestOption.Limit 50], err := none }] }
      hserved hlen (fun x hx => hgood x (List.mem_append_left _ hx))
      (fun q hq x hx => hgood x (List.mem_append_right _
        (List.mem_flatMap.mpr ⟨q, hq, hx⟩)))
    simp only [spotifyGetter.Playlists, invoke, hfirst, Reply.err]
    rw [h]
    simp
  · intro P1 xs more hfirst hserved hlen hgood
    refine ⟨?_, listingServed_forall₂ _ _ _ _ more P1 _ xs hserved⟩
    have h := listingLoop_served PageKind.savedAlbums c.NextPageSavedAlbums
      SavedAlbumPage.Albums (fun album => spotifyGetter.completeAlbum c fuel album.ID)
      (fun album s x => albumServed c album.ID s x)
      (fun album s x => albumEnd c album.ID s x)
      (fun x => x.rest.length < fuel) albumEntry
      (fun item w x hx hg => completeAlbum_served c fuel item.ID w x hx hg)
      more fuel P1 xs []
      { remote := (c.CurrentUsersAlbums [RequestOption.Limit 50] w.remote).2,
        journal := w.journal ++
          [{ call := Call.CurrentUsersAlbums [RequestOption.Limit 50], err := none }] }
      hserved hlen (fun x hx => hgood x (List.mem_append_left _ hx))
      (fun q hq x hx => hgood x (List.mem_append_right _
        (List.mem_flatMap.mpr ⟨q, hq, hx⟩)))
    simp only [spotifyGetter.SavedAlbums, invoke, hfirst, Reply.err]
    rw [h]
    simp

theorem Playlists_completes_every_item_witness :
    (spotifyGetter.Playlists (sampleClient noFault) 5 freshWorld).1 =
        some (some
          [{ FullPlaylist := { ID := 21 }, Items := [{ ID := 210 }, { ID := 999 }] },
            { FullPlaylist := { ID := 22 }, Items := [{ ID := 220 }] },
            { FullPlaylist := { ID := 23 }, Items := [{ ID := 230 }] }], none) ∧
      (spotifyGetter.SavedAlbums (sampleClient noFault) 5 freshWorld).1 =
        some (some
          [{ FullAlbum := { ID := 31 }, Items := [{ ID := 310 }, { ID := 888 }] },
            { FullAlbum := { ID := 32 }, Items := [{ ID := 320 }] }], none) :=
  ⟨((Playlists_completes_every_item (sampleClient noFault) freshWorld 5).1
      { Next := "playlists?offset=50", Playlists := [{ ID := 21 }, { ID := 22 }] }
      [{ full := { ID := 21 }, first := { Next := "items?offset=50", Items := [{ ID := 210 }] },
          rest := [{ Next := "", Items := [{ ID := 999 }] }] },
        { full := { ID := 22 }, first := { Next := "", Items := [{ ID := 220 }] }, rest := [] }]
      [({ Next := "", Playlists := [{ ID := 23 }] },
        [{ full := { ID := 23 }, first := { Next := "", Items := [{ ID := 230 }] }, rest := [] }])]
      rfl
      ⟨⟨⟨rfl, rfl, rfl, GoError.ErrNoMorePages, rfl, rfl⟩,
          ⟨rfl, rfl, GoError.ErrNoMorePages, rfl, rfl⟩, trivial⟩, rfl,
        ⟨⟨rfl, rfl, GoError.ErrNoMorePages, rfl, rfl⟩, trivial⟩,
        GoError.ErrNoMorePages, rfl, rfl⟩
      (by decide) (by decide)).1,
    ((Playlists_completes_every_item (sampleClient noFault) freshWorld 5).2
      { Next := "", Albums := [{ ID := 31 }, { ID := 32 }] }
      [{ full := { ID := 31 }, first := { Next := "tracks?offset=50", Tracks := [{ ID := 310 }] },
          rest := [{ Next := "", Tracks := [{ ID := 888 }] }] },
        { full := { ID := 32 }, first := { Next := "", Tracks := [{ ID := 320 }] }, rest := [] }]
      [] rfl
      ⟨⟨⟨rfl, rfl, rfl, GoError.ErrNoMorePages, rfl, rfl⟩,
          ⟨rfl, rfl, GoError.ErrNoMorePages, rfl, rfl⟩, trivial⟩,
        GoError.ErrNoMorePages, rfl, rfl⟩
      (by decide) (by decide)).1⟩

end Completion

/-! ## Hard errors abort the fetch -/

section Abort

variable {σ P I C R R2 α : Type}

theorem Traced.quiet (fail : GoError → R) (w w1 : World σ) (evs : List Event) (res : Option R)
    (h : w1.journal = w.journal ++ evs) (hq : ∀ x ∈ evs, x.hard = false) :
    Traced fail w (res, w1) :=
  ⟨evs, h, Or.inl hq⟩

theorem Traced.after (fail : GoError → R) (w w1 : World σ) (pre : List Event) (run : Run σ R)
    (h : w1.journal = w.journal ++ pre) (hq : ∀ x ∈ pre, x.hard = false)
    (ht : Traced fail w1 run) : Traced fail w run := by
  obtain ⟨evs, hj, hcase⟩ := ht
  refine ⟨pre ++ evs, by rw [hj, h, List.append_assoc], ?_⟩
  rcases hcase with hall | ⟨pre2, call, e, hevs, hpre2, hhard, hres⟩
  · left
    intro x hx
    rcases List.mem_append.mp hx with hx | hx
    · exact hq x hx
    · exact hall x hx
  · right
    refine ⟨pre ++ pre2, call, e, by rw [hevs, List.append_assoc], ?_, hhard, hres⟩
    intro x hx
    rcases List.mem_append.mp hx with hx | hx
    · exact hq x hx
    · exact hpre2 x hx

theorem Traced.error (fail : GoError → R) (w w1 : World σ) (call : Call) (e : GoError)
    (h : w1.journal = w.journal ++ [{ call := call, err := some e }]) :
    Traced fail w (some (fail e), w1) := by
  refine ⟨_, h, ?_⟩
  cases hhard : ({ call := call, err := some e } : Event).hard with
  | false =>
    left
    intro x hx
    rw [List.mem_singleton] at hx
    rw [hx, hhard]
  | true =>
    right
    exact ⟨[], call, e, rfl, by simp, hhard, rfl⟩

theorem Traced.map (fail : GoError → R) (fail2 : GoError → R2) (w w1 : World σ)
    (res : Option R) (res2 : Option R2) (ht : Traced fail w (res, w1))
    (hmap : ∀ e, res = some (fail e) → res2 = some (fail2 e)) :
    Traced fail2 w (res2, w1) := by
  obtain ⟨evs, hj, hcase⟩ := ht
  refine ⟨evs, hj, ?_⟩
  rcases hcase with hall | ⟨pre, call, e, hevs, hpre, hhard, hres⟩
  · exact Or.inl hall
  · exact Or.inr ⟨pre, call, e, hevs, hpre, hhard, hmap e hres⟩

theorem soft_of_no_more_pages (kind : PageKind) (e : GoError)
    (h : errorsIs e GoError.ErrNoMorePages = true) :
    ∀ x ∈ [({ call := Call.NextPage kind, err := some e } : Event)], x.hard = false := by
  intro x hx
  rw [List.mem_singleton] at hx
  simp [hx, Event.hard, Call.isNextPage, h]

theorem soft_of_ok (call : Call) :
    ∀ x ∈ [({ call := call, err := none } : Event)], x.hard = false := by
  intro x hx
  rw [List.mem_singleton] at hx
  simp [hx, Event.hard]

theorem nextPages_traced (kind : PageKind) (next : P → σ → Reply P × σ) (items : P → List α)
    (ret : GoError → R) (brk : List α → R) :
    ∀ (fuel : Nat) (page : P) (all : List α) (w : World σ),
      Traced ret w (spotifyGetter.nextPages kind next items ret brk fuel page all w) := by
  intro fuel
  induction fuel with
  | zero =>
    intro page all w
    exact Traced.quiet ret w w [] none (by simp) (by simp)
  | succ fuel ih =>
    intro page all w
    cases hrep : (next page w.remote).1 with
    | ok page1 =>
      simp only [spotifyGetter.nextPages, invoke, hrep, Reply.err]
      exact Traced.after ret w _ [{ call := Call.NextPage kind, err := none }] _ rfl
        (soft_of_ok _) (ih page1 _ _)
    | error err =>
      simp only [spotifyGetter.nextPages, invoke, hrep, Reply.err]
      cases hno : errorsIs err GoError.ErrNoMorePages with
      | true =>
        simp only [if_true]
        exact Traced.quiet ret w _ [{ call := Call.NextPage kind, err := some err }] _ rfl
          (soft_of_no_more_pages _ err hno)
      | false =>
        simp only [Bool.false_eq_true, if_false]
        exact Traced.error ret w _ (Call.NextPage kind) err rfl

theorem followedArtistsLoop_traced (c : Client σ) :
    ∀ (fuel : Nat) (after : String) (all : List FullArtist) (w : World σ),
      Traced (fun e => ((none, some e) : GoResult (List FullArtist))) w
        (spotifyGetter.followedArtistsLoop c fuel after all w) := by
  intro fuel
  induction fuel with
  | zero =>
    intro after all w
    exact Traced.quiet _ w w [] none (by simp) (by simp)
  | succ fuel ih =>
    intro after all w
    cases hrep : (c.CurrentUsersFollowedArtists (artistOpts after) w.remote).1 with
    | ok artists =>
      simp only [spotifyGetter.followedArtistsLoop, invoke, artistOpts_eq, hrep, Reply.err]
      by_cases hafter : artists.Cursor.After = ""
      · simp only [if_pos hafter]
        exact Traced.quiet _ w _ [_] _ rfl (soft_of_ok _)
      · simp only [if_neg hafter]
        exact Traced.after _ w _ [_] _ rfl (soft_of_ok _) (ih _ _ _)
    | error err =>
      simp only [spotifyGetter.followedArtistsLoop, invoke, artistOpts_eq, hrep, Reply.err]
      exact Traced.error _ w _ _ err rfl

theorem SavedTacks_traced (c : Client σ) (fuel : Nat) (w : World σ) :
    Traced (fun e => ((none, some e) : GoResult (List SavedTrack))) w
      (spotifyGetter.SavedTacks c fuel w) := by
  cases hrep : (c.CurrentUsersTracks [RequestOption.Limit 50] w.remote).1 with
  | ok tracks =>
    simp only [spotifyGetter.SavedTacks, invoke, hrep, Reply.err]
    exact Traced.after _ w _ [_] _ rfl (soft_of_ok _) (nextPages_traced _ _ _ _ _ _ _ _ _)
  | error err =>
    simp only [spotifyGetter.SavedTacks, invoke, hrep, Reply.err]
    exact Traced.error _ w _ _ err rfl

theorem completePlaylist_traced (c : Client σ) (fuel : Nat) (id : ID) (w : World σ) :
    Traced (fun e => ((none, some e) : GoResult PlaylistWithTracks)) w
      (spotifyGetter.completePlaylist c fuel id w) := by
  cases hrep : (c.GetPlaylist id w.remote).1 with
  | error err =>
    simp only [spotifyGetter.completePlaylist, invoke, hrep, Reply.err]
    exact Traced.error _ w _ _ err rfl
  | ok playlist =>
    cases hrep2 : (c.GetPlaylistItems id [RequestOption.Limit 50] (c.GetPlaylist id w.remote).2).1 with
    | error err =>
      simp only [spotifyGetter.completePlaylist, invoke, hrep, hrep2, Reply.err]
      exact Traced.after _ w _ [_] _ rfl (soft_of_ok _) (Traced.error _
        ({ remote := (c.GetPlaylist id w.remote).2,
           journal := w.journal ++ [{ call := Call.GetPlaylist id, err := none }] } : World σ)
        _ _ err rfl)
    | ok items =>
      simp only [spotifyGetter.completePlaylist, invoke, hrep, hrep2, Reply.err]
      exact Traced.after _ w _ [_] _ rfl (soft_of_ok _)
        (Traced.after _
          ({ remote := (c.GetPlaylist id w.remote).2,
             journal := w.journal ++ [{ call := Call.GetPlaylist id, err := none }] } : World σ)
          _ [_] _ rfl (soft_of_ok _)
          (nextPages_traced _ _ _ _ _ _ _ _ _))

theorem completeAlbum_traced (c : Client σ) (fuel : Nat) (id : ID) (w : World σ) :
    Traced (fun e => ((none, some e) : GoResult AlbumWithTracks)) w
      (spotifyGetter.completeAlbum c fuel id w) := by
  cases hrep : (c.GetAlbum id w.remote).1 with
  | error err =>
    simp only [spotifyGetter.completeAlbum, invoke, hrep, Reply.err]
    exact Traced.error _ w _ _ err rfl
  | ok album =>
    cases hrep2 : (c.GetAlbumTracks id [RequestOption.Limit 50] (c.GetAlbum id w.remote).2).1 with
    | error err =>
      simp only [spotifyGetter.completeAlbum, invoke, hrep, hrep2, Reply.err]
      exact Traced.after _ w _ [_] _ rfl (soft_of_ok _) (Traced.error _
        ({ remote := (c.GetAlbum id w.remote).2,
           journal := w.journal ++ [{ call := Call.GetAlbum id, err := none }] } : World σ)
        _ _ err rfl)
    | ok tracks =>
      simp only [spotifyGetter.completeAlbum, invoke, hrep, hrep2, Reply.err]
      exact Traced.after _ w _ [_] _ rfl (soft_of_ok _)
        (Traced.after _
          ({ remote := (c.GetAlbum id w.remote).2,
             journal := w.journal ++ [{ call := Call.GetAlbum id, err := none }] } : World σ)
          _ [_] _ rfl (soft_of_ok _)
          (nextPages_traced _ _ _ _ _ _ _ _ _))

theorem Traced.quiet_of (fail : GoError → R) (w w1 : World σ) (res : Option R)
    (ht : Traced fail w (res, w1)) (hne : ∀ e, res ≠ some (fail e)) :
    ∃ evs, w1.journal = w.journal ++ evs ∧ ∀ x ∈ evs, x.hard = false := by
  obtain ⟨evs, hj, hcase⟩ := ht
  rcases hcase with hall | ⟨pre, call, e, _, _, _, hres⟩
  · exact ⟨evs, hj, hall⟩
  · exact absurd hres (hne e)

theorem completeRange_traced (complete : I → World σ → Run σ (GoResult C))
    (hcomplete : ∀ (item : I) (w : World σ),
      Traced (fun e => ((none, some e) : GoResult C)) w (complete item w)) :
    ∀ (items : List I) (all : List C) (w : World σ),
      Traced (fun e => (Flow.ret (none, some e) : Flow (List C) (GoResult (List C)))) w
        (spotifyGetter.completeRange complete items all w) := by
  intro items
  induction items with
  | nil =>
    intro all w
    exact Traced.quiet _ w w [] _ (by simp) (by simp)
  | cons item items ih =>
    intro all w
    have ht := hcomplete item w
    unfold spotifyGetter.completeRange
    rcases hrun : complete item w with ⟨res, w1⟩
    rw [hrun] at ht
    match res, ht with
    | none, ht =>
      exact Traced.map _ _ w w1 none none ht (fun e h => by simp at h)
    | some (none, some err), ht =>
      show Traced _ w (some (Flow.ret (none, some err)), w1)
      exact Traced.map _ _ w w1 _ _ ht (fun e h => by
        simp only [Option.some.injEq, Prod.mk.injEq] at h
        simp [h.2])
    | some (some v, some err), ht =>
      show Traced _ w (some (Flow.ret (none, some err)), w1)
      exact Traced.map _ _ w w1 _ _ ht (fun e h => by
        simp only [Option.some.injEq, Prod.mk.injEq] at h
        simp [h.2])
    | some (none, none), ht =>
      show Traced _ w (none, w1)
      exact Traced.map _ _ w w1 _ none ht (fun e h => by simp at h)
    | some (some completed, none), ht =>
      show Traced _ w (spotifyGetter.completeRange complete items (all ++ [completed]) w1)
      obtain ⟨evs, hj, hq⟩ := Traced.quiet_of _ w w1 _ ht (fun e h => by simp at h)
      exact Traced.after _ w w1 evs _ hj hq (ih _ w1)

theorem listingLoop_traced (kind : PageKind) (next : P → σ → Reply P × σ) (items : P → List I)
    (complete : I → World σ → Run σ (GoResult C))
    (hcomplete : ∀ (item : I) (w : World σ),
      Traced (fun e => ((none, some e) : GoResult C)) w (complete item w)) :
    ∀ (fuel : Nat) (page : P) (all : List C) (w : World σ),
      Traced (fun e => ((none, some e) : GoResult (List C))) w
        (spotifyGetter.listingLoop kind next items complete fuel page all w) := by
  intro fuel
  induction fuel with
  | zero =>
    intro page all w
    exact Traced.quiet _ w w [] none (by simp) (by simp)
  | succ fuel ih =>
    intro page all w
    have ht := completeRange_traced complete hcomplete (items page) all w
    unfold spotifyGetter.listingLoop
    rcases hrun : spotifyGetter.completeRange complete (items page) all w with ⟨res, w1⟩
    rw [hrun] at ht
    match res, ht with
    | none, ht =>
      exact Traced.map _ _ w w1 none none ht (fun e h => by simp at h)
    | some (Flow.ret result), ht =>
      show Traced _ w (some result, w1)
      exact Traced.map _ _ w w1 _ _ ht (fun e h => by
        simp only [Option.some.injEq, Flow.ret.injEq] at h
        simp [h])
    | some (Flow.next all1), ht =>
      obtain ⟨evs, hj, hq⟩ := Traced.quiet_of _ w w1 _ ht (fun e h => by simp at h)
      refine Traced.after _ w w1 evs _ hj hq ?_
      cases hrep : (next page w1.remote).1 with
      | ok page1 =>
        simp only [invoke, hrep, Reply.err]
        exact Traced.after _ w1 _ [_] _ rfl (soft_of_ok _) (ih page1 _ _)
      | error err =>
        simp only [invoke, hrep, Reply.err]
        cases hno : errorsIs err GoError.ErrNoMorePages with
        | true =>
          simp only [if_true]
          exact Traced.quiet _ w1 _ [_] _ rfl (soft_of_no_more_pages _ err hno)
        | false =>
          simp only [Bool.false_eq_true, if_false]
          exact Traced.error _ w1 _ _ err rfl

theorem Playlists_traced (c : Client σ) (fuel : Nat) (w : World σ) :
    Traced (fun e => ((none, some e) : GoResult (List PlaylistWithTracks))) w
      (spotifyGetter.Playlists c fuel w) := by
  cases hrep : (c.CurrentUsersPlaylists [RequestOption.Limit 50] w.remote).1 with
  | ok playlists =>
    simp only [spotifyGetter.Playlists, invoke, hrep, Reply.err]
    exact Traced.after _ w _ [_] _ rfl (soft_of_ok _)
      (listingLoop_traced _ _ _ _ (fun (item : SimplePlaylist) w => completePlaylist_traced c fuel item.ID w) _ _ _ _)
  | error err =>
    simp only [spotifyGetter.Playlists, invoke, hrep, Reply.err]
    exact Traced.error _ w _ _ err rfl

theorem SavedAlbums_traced (c : Client σ) (fuel : Nat) (w : World σ) :
    Traced (fun e => ((none, some e) : GoResult (List AlbumWithTracks))) w
      (spotifyGetter.SavedAlbums c fuel w) := by
  cases hrep : (c.CurrentUsersAlbums [RequestOption.Limit 50] w.remote).1 with
  | ok albums =>
    simp only [spotifyGetter.SavedAlbums, invoke, hrep, Reply.err]
    exact Traced.after _ w _ [_] _ rfl (soft_of_ok _)
      (listingLoop_traced _ _ _ _ (fun (item : SavedAlbum) w => completeAlbum_traced c fuel item.ID w) _ _ _ _)
  | error err =>
    simp only [spotifyGetter.SavedAlbums, invoke, hrep, Reply.err]
    exact Traced.error _ w _ _ err rfl

theorem hardErrorAborts_of_traced (w : World σ) (run : Run σ (GoResult α))
    (ht : Traced (fun e => ((none, some e) : GoResult α)) w run) : HardErrorAborts w run := by
  obtain ⟨evs, hj, hcase⟩ := ht
  have hsince : eventsSince w.journal run.2 = evs := by
    unfold eventsSince
    rw [hj, List.drop_left]
  intro ev hev e herr hhard
  rw [hsince] at hev ⊢
  have hevhard : ev.hard = true := by
    rcases hhard with hcall | hno
    · simp [Event.hard, herr, hcall]
    · simp [Event.hard, herr, hno]
  rcases hcase with hall | ⟨pre, call, e2, hevs, hpre, _, hres⟩
  · rw [hall ev hev] at hevhard
    exact absurd hevhard (by simp)
  · rw [hevs] at hev
    rcases List.mem_append.mp hev with hin | hin
    · rw [hpre ev hin] at hevhard
      exact absurd hevhard (by simp)
    · rw [List.mem_singleton] at hin
      have he : e2 = e := by
        rw [hin] at herr
        simpa using herr
      rw [← he]
      exact ⟨hres, pre, by rw [hevs, hin], hpre⟩

/-- Claim C4 as stated fails for an error that wraps the sentinel: on the sample
remote the `NextPage` call for the second page of saved tracks returns an error
that is not `ErrNoMorePages` itself but wraps it; `errors.Is` holds for it, so
`SavedTacks` leaves the loop and returns the tracks of the first page with a nil
error instead of a nil collection with that error. -/
theorem SavedTacks_wrapped_sentinel_ends_pagination :
    ({ call := Call.NextPage PageKind.savedTracks,
       err := some (GoError.wrapped 1 GoError.ErrNoMorePages) } : Event) ∈
        eventsSince freshWorld.journal
          (spotifyGetter.SavedTacks (sampleClient pageWrapsSentinel) 5 freshWorld).2 ∧
      GoError.wrapped 1 GoError.ErrNoMorePages ≠ GoError.ErrNoMorePages ∧
      (spotifyGetter.SavedTacks (sampleClient pageWrapsSentinel) 5 freshWorld).1 =
        some (some [{ ID := 1 }, { ID := 2 }], none) ∧
      (spotifyGetter.SavedTacks (sampleClient pageWrapsSentinel) 5 freshWorld).1 ≠
        some (none, some (GoError.wrapped 1 GoError.ErrNoMorePages)) :=
  ⟨by decide, by decide, by decide, by decide⟩

/-- Claim C4, amended. A hard error at any level aborts the whole fetcher and leaks
no partial result: in every run of `SavedTacks`, `FollowedArtists`, `Playlists`
and `SavedAlbums`, a client call that returns an error `e` and is either not a
`NextPage` call (the initial listing, a metadata fetch or the first page of a
track listing in `completePlaylist` or `completeAlbum`) or a `NextPage` call with
`errors.Is(e, ErrNoMorePages)` false is the last call of the run, and the
fetcher returns a nil collection together with `e`. -/
theorem hard_error_aborts_fetcher {σ : Type} (c : Client σ) (fuel : Nat) (w : World σ) :
    HardErrorAborts w (spotifyGetter.SavedTacks c fuel w) ∧
      HardErrorAborts w (spotifyGetter.FollowedArtists c fuel w) ∧
      HardErrorAborts w (spotifyGetter.Playlists c fuel w) ∧
      HardErrorAborts w (spotifyGetter.SavedAlbums c fuel w) :=
  ⟨hardErrorAborts_of_traced w _ (SavedTacks_traced c fuel w),
    hardErrorAborts_of_traced w _ (followedArtistsLoop_traced c fuel "" [] w),
    hardErrorAborts_of_traced w _ (Playlists_traced c fuel w),
    hardErrorAborts_of_traced w _ (SavedAlbums_traced c fuel w)⟩

theorem hard_error_aborts_fetcher_witness :
    ((spotifyGetter.SavedTacks (sampleClient tracksRefused) 5 freshWorld).1 =
        some (none, some (GoError.failure 401)) ∧
      ∃ pre, eventsSince freshWorld.journal
          (spotifyGetter.SavedTacks (sampleClient tracksRefused) 5 freshWorld).2 =
        pre ++ [{ call := Call.CurrentUsersTracks [RequestOption.Limit 50],
                  err := some (GoError.failure 401) }] ∧ ∀ x ∈ pre, x.hard = false) ∧
    ((spotifyGetter.Playlists (sampleClient itemsPageBroken) 5 freshWorld).1 =
        some (none, some (GoError.failure 500)) ∧
      ∃ pre, eventsSince freshWorld.journal
          (spotifyGetter.Playlists (sampleClient itemsPageBroken) 5 freshWorld).2 =
        pre ++ [{ call := Call.NextPage PageKind.playlistItems,
                  err := some (GoError.failure 500) }] ∧ ∀ x ∈ pre, x.hard = false) ∧
    ((spotifyGetter.SavedTacks (sampleClient listingWrapsSentinel) 5 freshWorld).1 =
        some (none, some (GoError.wrapped 2 GoError.ErrNoMorePages)) ∧
      ∃ pre, eventsSince freshWorld.journal
          (spotifyGetter.SavedTacks (sampleClient listingWrapsSentinel) 5 freshWorld).2 =
        pre ++ [{ call := Call.CurrentUsersTracks [RequestOption.Limit 50],
                  err := some (GoError.wrapped 2 GoError.ErrNoMorePages) }] ∧
          ∀ x ∈ pre, x.hard = false) :=
  ⟨(hard_error_aborts_fetcher (sampleClient tracksRefused) 5 freshWorld).1
      { call := Call.CurrentUsersTracks [RequestOption.Limit 50],
        err := some (GoError.failure 401) } (by decide) (GoError.failure 401) rfl
      (Or.inl rfl),
    (hard_error_aborts_fetcher (sampleClient itemsPageBroken) 5 freshWorld).2.2.1
      { call := Call.NextPage PageKind.playlistItems, err := some (GoError.failure 500) }
      (by decide) (GoError.failure 500) rfl (Or.inr rfl),
    (hard_error_aborts_fetcher (sampleClient listingWrapsSentinel) 5 freshWorld).1
      { call := Call.CurrentUsersTracks [RequestOption.Limit 50],
        err := some (GoError.wrapped 2 GoError.ErrNoMorePages) } (by decide)
      (GoError.wrapped 2 GoError.ErrNoMorePages) rfl (Or.inl rfl)⟩

end Abort

/-! ## The aggregator -/

section Aggregator

variable {σ : Type}

theorem runGoroutines_assigned (c : Client σ) (fuel : Nat) (view : Goroutine → World σ)
    (rt : GoResult (List SavedTrack)) (ra : GoResult (List FullArtist))
    (rp : GoResult (List PlaylistWithTracks)) (rl : GoResult (List AlbumWithTracks))
    (ht : (spotifyGetter.SavedTacks c fuel (view Goroutine.tracks)).1 = some rt)
    (ha : (spotifyGetter.FollowedArtists c fuel (view Goroutine.artists)).1 = some ra)
    (hp : (spotifyGetter.Playlists c fuel (view Goroutine.playlists)).1 = some rp)
    (hl : (spotifyGetter.SavedAlbums c fuel (view Goroutine.albums)).1 = some rl) :
    ∀ (finish : List Goroutine) (v : LibraryVars),
      spotifyGetter.runGoroutines c fuel view finish v =
        some (assigned (spotifyGetter.PrivateUser c (view Goroutine.user)).1 rt ra rp rl
          finish v) := by
  intro finish
  induction finish with
  | nil => intro v; simp [spotifyGetter.runGoroutines, assigned]
  | cons g rest ih =>
    intro v
    cases g <;>
      simp only [spotifyGetter.runGoroutines, spotifyGetter.goroutine, ht, ha, hp, hl, ih] <;>
      simp only [assigned, List.mem_cons, true_or, if_true, false_or, reduceCtorEq] <;>
      split_ifs <;> rfl

theorem nextPages_result {P α R : Type} (kind : PageKind) (next : P → σ → Reply P × σ)
    (items : P → List α) (ret : GoError → R) (brk : List α → R) (Q : R → Prop)
    (hbrk : ∀ a, Q (brk a)) (hret : ∀ e, Q (ret e)) :
    ∀ (fuel : Nat) (page : P) (all : List α) (w : World σ) (r : R),
      (spotifyGetter.nextPages kind next items ret brk fuel page all w).1 = some r → Q r := by
  intro fuel
  induction fuel with
  | zero => intro page all w r h; simp [spotifyGetter.nextPages] at h
  | succ fuel ih =>
    intro page all w r h
    cases hrep : (next page w.remote).1 with
    | ok page1 =>
      simp only [spotifyGetter.nextPages, invoke, hrep] at h
      exact ih _ _ _ r h
    | error err =>
      simp only [spotifyGetter.nextPages, invoke, hrep] at h
      split_ifs at h
      · simp only [Option.some.injEq] at h
        rw [← h]; exact hbrk all
      · simp only [Option.some.injEq] at h
        rw [← h]; exact hret err

theorem SavedTacks_oneNil (c : Client σ) (fuel : Nat) (w : World σ)
    (r : GoResult (List SavedTrack)) (h : (spotifyGetter.SavedTacks c fuel w).1 = some r) :
    OneNil r := by
  cases hrep : (c.CurrentUsersTracks [RequestOption.Limit 50] w.remote).1 with
  | ok tracks =>
    simp only [spotifyGetter.SavedTacks, invoke, hrep] at h
    exact nextPages_result _ _ _ _ _ OneNil (fun a => Or.inl ⟨a, rfl⟩) (fun e => Or.inr ⟨e, rfl⟩)
      _ _ _ _ r h
  | error err =>
    simp only [spotifyGetter.SavedTacks, invoke, hrep, Option.some.injEq] at h
    exact Or.inr ⟨err, h.symm⟩

theorem followedArtistsLoop_oneNil (c : Client σ) :
    ∀ (fuel : Nat) (after : String) (all : List FullArtist) (w : World σ)
      (r : GoResult (List FullArtist)),
      (spotifyGetter.followedArtistsLoop c fuel after all w).1 = some r → OneNil r := by
  intro fuel
  induction fuel with
  | zero => intro after all w r h; simp [spotifyGetter.followedArtistsLoop] at h
  | succ fuel ih =>
    intro after all w r h
    cases hrep : (c.CurrentUsersFollowedArtists (artistOpts after) w.remote).1 with
    | ok artists =>
      simp only [spotifyGetter.followedArtistsLoop, invoke, artistOpts_eq, hrep] at h
      split_ifs at h
      · simp only [Option.some.injEq] at h
        exact Or.inl ⟨_, h.symm⟩
      · exact ih _ _ _ r h
    | error err =>
      simp only [spotifyGetter.followedArtistsLoop, invoke, artistOpts_eq, hrep,
        Option.some.injEq] at h
      exact Or.inr ⟨err, h.symm⟩

theorem listingLoop_oneNil {P I C : Type} (kind : PageKind) (next : P → σ → Reply P × σ)
    (items : P → List I) (complete : I → World σ → Run σ (GoResult C)) :
    ∀ (fuel : Nat) (page : P) (all : List C) (w : World σ) (r : GoResult (List C)),
      (spotifyGetter.listingLoop kind next items complete fuel page all w).1 = some r →
      OneNil r := by
  have hrange : ∀ (its : List I) (all : List C) (w : World σ) (result : GoResult (List C)),
      (spotifyGetter.completeRange complete its all w).1 = some (Flow.ret result) →
      OneNil result := by
    intro its
    induction its with
    | nil => intro all w result h; simp [spotifyGetter.completeRange] at h
    | cons item its ih =>
      intro all w result h
      unfold spotifyGetter.completeRange at h
      rcases hrun : complete item w with ⟨res, w1⟩
      rw [hrun] at h
      match res, h with
      | none, h => simp at h
      | some (none, some err), h =>
        simp only [Option.some.injEq, Flow.ret.injEq] at h
        exact Or.inr ⟨err, h.symm⟩
      | some (some v, some err), h =>
        simp only [Option.some.injEq, Flow.ret.injEq] at h
        exact Or.inr ⟨err, h.symm⟩
      | some (none, none), h => simp at h
      | some (some completed, none), h => exact ih _ w1 result h
  intro fuel
  induction fuel with
  | zero => intro page all w r h; simp [spotifyGetter.listingLoop] at h
  | succ fuel ih =>
    intro page all w r h
    unfold spotifyGetter.listingLoop at h
    rcases hrun : spotifyGetter.completeRange complete (items page) all w with ⟨res, w1⟩
    have hres : (spotifyGetter.completeRange complete (items page) all w).1 = res := by
      rw [hrun]
    rw [hrun] at h
    match res, h, hres with
    | none, h, _ => simp at h
    | some (Flow.ret result), h, hres =>
      simp only [Option.some.injEq] at h
      rw [← h]
      exact hrange _ _ _ result hres
    | some (Flow.next all1), h, _ =>
      cases hrep : (next page w1.remote).1 with
      | ok page1 =>
        simp only [invoke, hrep] at h
        exact ih _ _ _ r h
      | error err =>
        simp only [invoke, hrep] at h
        split_ifs at h
        · simp only [Option.some.injEq] at h
          exact Or.inl ⟨_, h.symm⟩
        · simp only [Option.some.injEq] at h
          exact Or.inr ⟨err, h.symm⟩

theorem Playlists_oneNil (c : Client σ) (fuel : Nat) (w : World σ)
    (r : GoResult (List PlaylistWithTracks))
    (h : (spotifyGetter.Playlists c fuel w).1 = some r) : OneNil r := by
  cases hrep : (c.CurrentUsersPlaylists [RequestOption.Limit 50] w.remote).1 with
  | ok playlists =>
    simp only [spotifyGetter.Playlists, invoke, hrep] at h
    exact listingLoop_oneNil _ _ _ _ _ _ _ _ r h
  | error err =>
    simp only [spotifyGetter.Playlists, invoke, hrep, Option.some.injEq] at h
    exact Or.inr ⟨err, h.symm⟩

theorem SavedAlbums_oneNil (c : Client σ) (fuel : Nat) (w : World σ)
    (r : GoResult (List AlbumWithTracks))
    (h : (spotifyGetter.SavedAlbums c fuel w).1 = some r) : OneNil r := by
  cases hrep : (c.CurrentUsersAlbums [RequestOption.Limit 50] w.remote).1 with
  | ok albums =>
    simp only [spotifyGetter.SavedAlbums, invoke, hrep] at h
    exact listingLoop_oneNil _ _ _ _ _ _ _ _ r h
  | error err =>
    simp only [spotifyGetter.SavedAlbums, invoke, hrep, Option.some.injEq] at h
    exact Or.inr ⟨err, h.symm⟩

theorem PrivateUser_oneNil (c : Client σ) (w : World σ) :
    OneNil (spotifyGetter.PrivateUser c w).1 := by
  cases hrep : (c.CurrentUser w.remote).1 with
  | ok user =>
    simp only [spotifyGetter.PrivateUser, invoke, hrep]
    exact Or.inl ⟨user, rfl⟩
  | error err =>
    simp only [spotifyGetter.PrivateUser, invoke, hrep]
    exact Or.inr ⟨err, rfl⟩

theorem OneNil.nil_iff {α : Type} {r : GoResult α} (h : OneNil r) : r.1 = none ↔ r.2 ≠ none := by
  rcases h with ⟨a, rfl⟩ | ⟨e, rfl⟩ <;> simp

theorem errorsIs_self (e : GoError) : errorsIs e e = true := by
  cases e <;> simp [errorsIs]

theorem errorsJoin_eq_none_iff (errs : List (Option GoError)) :
    errorsJoin errs = none ↔ ∀ e ∈ errs, e = none := by
  unfold errorsJoin
  simp only [List.length_eq_zero, ite_eq_left_iff, reduceCtorEq, imp_false, not_not,
    List.filter_eq_nil_iff]
  constructor
  · intro h e he
    have := h e he
    cases e with
    | none => rfl
    | some x => simp at this
  · intro h e he
    rw [h e he]
    simp

theorem errorsJoin_errs (errs : List (Option GoError)) (j : joinError)
    (h : errorsJoin errs = some j) : j.errs = errs.filterMap id := by
  simp only [errorsJoin] at h
  split_ifs at h
  simp only [Option.some.injEq] at h
  rw [← h]

theorem errorsIsJoined_of_mem (errs : List (Option GoError)) (e : GoError)
    (he : some e ∈ errs) : errorsIsJoined (errorsJoin errs) e = true := by
  cases hj : errorsJoin errs with
  | none =>
    have := (errorsJoin_eq_none_iff errs).mp hj (some e) he
    simp at this
  | some j =>
    have hmem : e ∈ j.errs := by
      rw [errorsJoin_errs errs j hj]
      exact List.mem_filterMap.mpr ⟨some e, he, rfl⟩
    simp only [errorsIsJoined, List.any_eq_true]
    exact ⟨e, hmem, errorsIs_self e⟩

theorem Library_eq (c : Client σ) (fuel : Nat) (view : Goroutine → World σ)
    (finish : List Goroutine) (hfinish : finish.Perm allGoroutines)
    (rt : GoResult (List SavedTrack)) (ra : GoResult (List FullArtist))
    (rp : GoResult (List PlaylistWithTracks)) (rl : GoResult (List AlbumWithTracks))
    (ht : (spotifyGetter.SavedTacks c fuel (view Goroutine.tracks)).1 = some rt)
    (ha : (spotifyGetter.FollowedArtists c fuel (view Goroutine.artists)).1 = some ra)
    (hp : (spotifyGetter.Playlists c fuel (view Goroutine.playlists)).1 = some rp)
    (hl : (spotifyGetter.SavedAlbums c fuel (view Goroutine.albums)).1 = some rl) :
    spotifyGetter.Library c fuel view finish =
      some (some
        { User := (spotifyGetter.PrivateUser c (view Goroutine.user)).1.1,
          Tracks := rt.1, Artists := ra.1, Playlists := rp.1, Albums := rl.1 },
        errorsJoin [(spotifyGetter.PrivateUser c (view Goroutine.user)).1.2, rt.2, ra.2, rp.2,
          rl.2]) := by
  have hmem : ∀ g, g ∈ finish := by
    intro g
    rw [hfinish.mem_iff]
    cases g <;> simp [allGoroutines]
  simp only [spotifyGetter.Library, runGoroutines_assigned c fuel view rt ra rp rl ht ha hp hl,
    assigned, hmem, if_true]

/-- Claim C5. The combined error of `Library` is a multi-error join, not the first
error: whatever the five fetchers return and in whatever order the goroutines
complete, the error of `Library` is nil if and only if all five fetcher errors
are nil; otherwise it holds exactly the non-nil fetcher errors, in the order
user, tracks, artists, playlists, albums, and `errors.Is` finds each of them. -/
theorem Library_error_is_join {σ : Type} (c : Client σ) (fuel : Nat)
    (view : Goroutine → World σ) (finish : List Goroutine) (hfinish : finish.Perm allGoroutines)
    (rt : GoResult (List SavedTrack)) (ra : GoResult (List FullArtist))
    (rp : GoResult (List PlaylistWithTracks)) (rl : GoResult (List AlbumWithTracks))
    (ht : (spotifyGetter.SavedTacks c fuel (view Goroutine.tracks)).1 = some rt)
    (ha : (spotifyGetter.FollowedArtists c fuel (view Goroutine.artists)).1 = some ra)
    (hp : (spotifyGetter.Playlists c fuel (view Goroutine.playlists)).1 = some rp)
    (hl : (spotifyGetter.SavedAlbums c fuel (view Goroutine.albums)).1 = some rl) :
    ∃ lib err, spotifyGetter.Library c fuel view finish = some (lib, err) ∧
      (err = none ↔
        (spotifyGetter.PrivateUser c (view Goroutine.user)).1.2 = none ∧ rt.2 = none ∧
          ra.2 = none ∧ rp.2 = none ∧ rl.2 = none) ∧
      (∀ j, err = some j →
        j.errs = [(spotifyGetter.PrivateUser c (view Goroutine.user)).1.2, rt.2, ra.2, rp.2,
          rl.2].filterMap id) ∧
      (∀ e, some e ∈ [(spotifyGetter.PrivateUser c (view Goroutine.user)).1.2, rt.2, ra.2,
          rp.2, rl.2] → errorsIsJoined err e = true) := by
  refine ⟨_, _, Library_eq c fuel view finish hfinish rt ra rp rl ht ha hp hl, ?_, ?_, ?_⟩
  · rw [errorsJoin_eq_none_iff]
    simp
  · intro j hj
    exact errorsJoin_errs _ j hj
  · intro e he
    exact errorsIsJoined_of_mem _ e he

theorem Library_error_is_join_witness :
    ∃ lib err,
      spotifyGetter.Library (sampleClient tracksAndPlaylistsRefused) 5 (fun _ => freshWorld)
          [Goroutine.albums, Goroutine.user, Goroutine.playlists, Goroutine.tracks,
            Goroutine.artists] = some (lib, err) ∧
      (err = none ↔
        (none : Option GoError) = none ∧ some (GoError.failure 401) = none ∧
          (none : Option GoError) = none ∧ some (GoError.failure 503) = none ∧
          (none : Option GoError) = none) ∧
      (∀ j, err = some j → j.errs = [GoError.failure 401, GoError.failure 503]) ∧
      (∀ e, some e ∈ [none, some (GoError.failure 401), none, some (GoError.failure 503), none] →
        errorsIsJoined err e = true) :=
  Library_error_is_join (sampleClient tracksAndPlaylistsRefused) 5 (fun _ => freshWorld)
    [Goroutine.albums, Goroutine.user, Goroutine.playlists, Goroutine.tracks, Goroutine.artists]
    (by decide)
    (none, some (GoError.failure 401))
    (some [{ ID := 11 }, { ID := 12 }, { ID := 13 }], none)
    (none, some (GoError.failure 503))
    (some [{ FullAlbum := { ID := 31 }, Items := [{ ID := 310 }, { ID := 888 }] },
      { FullAlbum := { ID := 32 }, Items := [{ ID := 320 }] }], none)
    rfl rfl rfl rfl

/-- Claim C6. `Library` fills each field of the snapshot from its own fetcher, whatever
the others do and in whatever order the five goroutines complete: it returns a
non-nil snapshot whose `User`, `Tracks`, `Artists`, `Playlists` and `Albums` are
the values returned by `PrivateUser`, `SavedTacks`, `FollowedArtists`, `Playlists`
and `SavedAlbums`; a field is nil exactly when its fetcher returned an error. -/
theorem Library_fills_each_field {σ : Type} (c : Client σ) (fuel : Nat)
    (view : Goroutine → World σ) (finish : List Goroutine) (hfinish : finish.Perm allGoroutines)
    (rt : GoResult (List SavedTrack)) (ra : GoResult (List FullArtist))
    (rp : GoResult (List PlaylistWithTracks)) (rl : GoResult (List AlbumWithTracks))
    (ht : (spotifyGetter.SavedTacks c fuel (view Goroutine.tracks)).1 = some rt)
    (ha : (spotifyGetter.FollowedArtists c fuel (view Goroutine.artists)).1 = some ra)
    (hp : (spotifyGetter.Playlists c fuel (view Goroutine.playlists)).1 = some rp)
    (hl : (spotifyGetter.SavedAlbums c fuel (view Goroutine.albums)).1 = some rl) :
    ∃ lib err, spotifyGetter.Library c fuel view finish = some (some lib, err) ∧
      lib.User = (spotifyGetter.PrivateUser c (view Goroutine.user)).1.1 ∧
      lib.Tracks = rt.1 ∧ lib.Artists = ra.1 ∧ lib.Playlists = rp.1 ∧ lib.Albums = rl.1 ∧
      (lib.User = none ↔ (spotifyGetter.PrivateUser c (view Goroutine.user)).1.2 ≠ none) ∧
      (lib.Tracks = none ↔ rt.2 ≠ none) ∧ (lib.Artists = none ↔ ra.2 ≠ none) ∧
      (lib.Playlists = none ↔ rp.2 ≠ none) ∧ (lib.Albums = none ↔ rl.2 ≠ none) :=
  ⟨_, _, Library_eq c fuel view finish hfinish rt ra rp rl ht ha hp hl, rfl, rfl, rfl, rfl, rfl,
    (PrivateUser_oneNil c (view Goroutine.user)).nil_iff,
    (SavedTacks_oneNil c fuel _ rt ht).nil_iff,
    (followedArtistsLoop_oneNil c fuel "" [] _ ra ha).nil_iff,
    (Playlists_oneNil c fuel _ rp hp).nil_iff,
    (SavedAlbums_oneNil c fuel _ rl hl).nil_iff⟩

theorem Library_fills_each_field_witness :
    ∃ lib err,
      spotifyGetter.Library (sampleClient tracksAndPlaylistsRefused) 5 (fun _ => freshWorld)
          [Goroutine.playlists, Goroutine.artists, Goroutine.user, Goroutine.albums,
            Goroutine.tracks] = some (some lib, err) ∧
      lib.User = some { ID := 7 } ∧
      lib.Tracks = none ∧
      lib.Artists = some [{ ID := 11 }, { ID := 12 }, { ID := 13 }] ∧
      lib.Playlists = none ∧
      lib.Albums = some [{ FullAlbum := { ID := 31 }, Items := [{ ID := 310 }, { ID := 888 }] },
        { FullAlbum := { ID := 32 }, Items := [{ ID := 320 }] }] :=
  match Library_fills_each_field (sampleClient tracksAndPlaylistsRefused) 5
      (fun _ => freshWorld)
      [Goroutine.playlists, Goroutine.artists, Goroutine.user, Goroutine.albums, Goroutine.tracks]
      (by decide)
      (none, some (GoError.failure 401))
      (some [{ ID := 11 }, { ID := 12 }, { ID := 13 }], none)
      (none, some (GoError.failure 503))
      (some [{ FullAlbum := { ID := 31 }, Items := [{ ID := 310 }, { ID := 888 }] },
        { FullAlbum := { ID := 32 }, Items := [{ ID := 320 }] }], none)
      rfl rfl rfl rfl with
  | ⟨lib, err, hlib, hu, ht, ha, hp, hl, _⟩ => ⟨lib, err, hlib, hu, ht, ha, hp, hl⟩

end Aggregator

/-! ## The archive serialiser -/

section Serializer

theorem zipper.jsonToZip_cases (zf : ZipFaults) (json : Bytes) (w : ZipWriter) (name : String)
    (hclean : w.clean) :
    (∃ w1, zipper.jsonToZip zf json w name = (none, w1) ∧
        w1.entries = w.entries ++ [{ Name := name, Data := json }] ∧ w1.closed = w.closed ∧
        w1.clean) ∨
      (∃ e w1, zipper.jsonToZip zf json w name = (some e, w1) ∧ w1.failedWith e) := by
  unfold zipper.jsonToZip zipCreate
  cases hc : zf.Create w name with
  | some e =>
    right
    refine ⟨e, _, rfl, ?_⟩
    intro x hx e2 he2
    simp only [List.mem_append, List.mem_singleton] at hx
    rcases hx with hx | hx
    · rw [hclean x hx] at he2; simp at he2
    · rw [hx] at he2; simpa using he2.symm
  | none =>
    simp only [zipWrite]
    cases hw : zf.Write
        { entries := w.entries ++ [{ Name := name, Data := "" }], closed := w.closed,
          ops := w.ops ++ [{ op := ZipOp.Create name, err := none }] } json with
    | some e =>
      right
      refine ⟨e, _, rfl, ?_⟩
      intro x hx e2 he2
      simp only [List.mem_append, List.mem_singleton] at hx
      rcases hx with (hx | hx) | hx
      · rw [hclean x hx] at he2; simp at he2
      · rw [hx] at he2; simp at he2
      · rw [hx] at he2; simpa using he2.symm
    | none =>
      left
      refine ⟨_, rfl, by simp, rfl, ?_⟩
      intro x hx
      simp only [List.mem_append, List.mem_singleton] at hx
      rcases hx with (hx | hx) | hx
      · exact hclean x hx
      · rw [hx]
      · rw [hx]

theorem zipClose_cases (zf : ZipFaults) (w : ZipWriter) (hclean : w.clean) :
    (∃ w1, zipClose zf w = (none, w1) ∧ w1.entries = w.entries ∧ w1.closed = true ∧ w1.clean) ∨
      (∃ e w1, zipClose zf w = (some e, w1) ∧ w1.failedWith e) := by
  unfold zipClose
  cases hc : zf.Close w with
  | some e =>
    right
    refine ⟨e, _, rfl, ?_⟩
    intro x hx e2 he2
    simp only [List.mem_append, List.mem_singleton] at hx
    rcases hx with hx | hx
    · rw [hclean x hx] at he2; simp at he2
    · rw [hx] at he2; simpa using he2.symm
  | none =>
    left
    refine ⟨_, rfl, rfl, rfl, ?_⟩
    intro x hx
    simp only [List.mem_append, List.mem_singleton] at hx
    rcases hx with hx | hx
    · exact hclean x hx
    · rw [hx]

theorem Json_cases (enc : JsonEncoder) (zf : ZipFaults) (z : zipper) :
    (∃ e rest, zipper.Json enc zf z = { buf := none, err := some e, writer := none } ∧
        (marshalErrors enc z).filterMap id = e :: rest) ∨
      (∃ u t p a l,
        (enc.MarshalIndentUser z.user "" "  " = Reply.ok u ∧
        enc.MarshalIndentTracks z.tracks "" "  " = Reply.ok t ∧
        enc.MarshalIndentPlaylists z.playlists "" "  " = Reply.ok p ∧
        enc.MarshalIndentArtists z.artists "" "  " = Reply.ok a ∧
        enc.MarshalIndentAlbums z.albums "" "  " = Reply.ok l) ∧
        ((∃ e w, zipper.Json enc zf z = { buf := none, err := some e, writer := some w } ∧
            w.failedWith e) ∨
          (∃ w, zipper.Json enc zf z = { buf := some w, err := none, writer := some w } ∧
            w.entries =
              [{ Name := "user.json", Data := u },
              { Name := "tracks.json", Data := t },
              { Name := "playlists.json", Data := p },
              { Name := "artists.json", Data := a },
              { Name := "albums.json", Data := l }] ∧
            w.closed = true ∧ w.clean))) := by
  cases h1 : enc.MarshalIndentUser z.user "" "  " with
  | error e =>
    left
    exact ⟨e, _, by simp [zipper.Json, h1], by simp only [marshalErrors, h1, Reply.err]; rfl⟩
  | ok u =>
  cases h2 : enc.MarshalIndentTracks z.tracks "" "  " with
  | error e =>
    left
    exact ⟨e, _, by simp [zipper.Json, h1, h2], by simp only [marshalErrors, h1, h2, Reply.err]; rfl⟩
  | ok t =>
  cases h3 : enc.MarshalIndentPlaylists z.playlists "" "  " with
  | error e =>
    left
    exact ⟨e, _, by simp [zipper.Json, h1, h2, h3], by simp only [marshalErrors, h1, h2, h3, Reply.err]; rfl⟩
  | ok p =>
  cases h4 : enc.MarshalIndentArtists z.artists "" "  " with
  | error e =>
    left
    exact ⟨e, _, by simp [zipper.Json, h1, h2, h3, h4], by simp only [marshalErrors, h1, h2, h3, h4, Reply.err]; rfl⟩
  | ok a =>
  cases h5 : enc.MarshalIndentAlbums z.albums "" "  " with
  | error e =>
    left
    exact ⟨e, _, by simp [zipper.Json, h1, h2, h3, h4, h5], by simp only [marshalErrors, h1, h2, h3, h4, h5, Reply.err]; rfl⟩
  | ok l =>
  right
  refine ⟨u, t, p, a, l, ⟨rfl, rfl, rfl, rfl, rfl⟩, ?_⟩
  have c0 : zipNewWriter.clean := by
    intro x hx
    simp [zipNewWriter] at hx
  rcases zipper.jsonToZip_cases zf u zipNewWriter "user.json" c0 with
    ⟨w1, hz1, he1, hc1, c1⟩ | ⟨e, w1, hz1, hf⟩
  swap
  · left
    exact ⟨e, w1, by simp [zipper.Json, h1, h2, h3, h4, h5, hz1], hf⟩
  rcases zipper.jsonToZip_cases zf t w1 "tracks.json" c1 with
    ⟨w2, hz2, he2, hc2, c2⟩ | ⟨e, w2, hz2, hf⟩
  swap
  · left
    exact ⟨e, w2, by simp [zipper.Json, h1, h2, h3, h4, h5, hz1, hz2], hf⟩
  rcases zipper.jsonToZip_cases zf p w2 "playlists.json" c2 with
    ⟨w3, hz3, he3, hc3, c3⟩ | ⟨e, w3, hz3, hf⟩
  swap
  · left
    exact ⟨e, w3, by simp [zipper.Json, h1, h2, h3, h4, h5, hz1, hz2, hz3], hf⟩
  rcases zipper.jsonToZip_cases zf a w3 "artists.json" c3 with
    ⟨w4, hz4, he4, hc4, c4⟩ | ⟨e, w4, hz4, hf⟩
  swap
  · left
    exact ⟨e, w4, by simp [zipper.Json, h1, h2, h3, h4, h5, hz1, hz2, hz3, hz4], hf⟩
  rcases zipper.jsonToZip_cases zf l w4 "albums.json" c4 with
    ⟨w5, hz5, he5, hc5, c5⟩ | ⟨e, w5, hz5, hf⟩
  swap
  · left
    exact ⟨e, w5, by simp [zipper.Json, h1, h2, h3, h4, h5, hz1, hz2, hz3, hz4, hz5], hf⟩
  rcases zipClose_cases zf w5 c5 with ⟨w6, hz6, he6, hc6, c6⟩ | ⟨e, w6, hz6, hf⟩
  swap
  · left
    exact ⟨e, w6, by simp [zipper.Json, h1, h2, h3, h4, h5, hz1, hz2, hz3, hz4, hz5, hz6], hf⟩
  right
  refine ⟨w6, by simp [zipper.Json, h1, h2, h3, h4, h5, hz1, hz2, hz3, hz4, hz5, hz6], ?_, hc6, c6⟩
  rw [he6, he5, he4, he3, he2, he1]
  simp [zipNewWriter]

/-- Claim C7. Whenever `Json` succeeds, the archive it returns is finalised and holds
exactly five entries, created in the order `user.json`, `tracks.json`,
`playlists.json`, `artists.json`, `albums.json`; the content of each entry is the
document `json.MarshalIndent(v, "", "  ")` of the matching field of the zipper. -/
theorem Json_archive_entries (enc : JsonEncoder) (zf : ZipFaults) (z : zipper)
    (h : (zipper.Json enc zf z).err = none) :
    ∃ buf u t p a l, (zipper.Json enc zf z).buf = some buf ∧
      enc.MarshalIndentUser z.user "" "  " = Reply.ok u ∧
      enc.MarshalIndentTracks z.tracks "" "  " = Reply.ok t ∧
      enc.MarshalIndentPlaylists z.playlists "" "  " = Reply.ok p ∧
      enc.MarshalIndentArtists z.artists "" "  " = Reply.ok a ∧
      enc.MarshalIndentAlbums z.albums "" "  " = Reply.ok l ∧
      buf.entries =
        [{ Name := "user.json", Data := u }, { Name := "tracks.json", Data := t },
          { Name := "playlists.json", Data := p }, { Name := "artists.json", Data := a },
          { Name := "albums.json", Data := l }] ∧
      buf.closed = true := by
  rcases Json_cases enc zf z with ⟨e, rest, hj, _⟩ | ⟨u, t, p, a, l, hm, hcase⟩
  · rw [hj] at h; simp at h
  · rcases hcase with ⟨e, w, hj, _⟩ | ⟨w, hj, hentries, hclosed, _⟩
    · rw [hj] at h; simp at h
    · exact ⟨w, u, t, p, a, l, by rw [hj], hm.1, hm.2.1, hm.2.2.1, hm.2.2.2.1, hm.2.2.2.2,
        hentries, hclosed⟩

theorem Json_archive_entries_witness :
    ∃ buf u t p a l, (zipper.Json sampleEncoder noZipFault sampleZipper).buf = some buf ∧
      sampleEncoder.MarshalIndentUser sampleZipper.user "" "  " = Reply.ok u ∧
      sampleEncoder.MarshalIndentTracks sampleZipper.tracks "" "  " = Reply.ok t ∧
      sampleEncoder.MarshalIndentPlaylists sampleZipper.playlists "" "  " = Reply.ok p ∧
      sampleEncoder.MarshalIndentArtists sampleZipper.artists "" "  " = Reply.ok a ∧
      sampleEncoder.MarshalIndentAlbums sampleZipper.albums "" "  " = Reply.ok l ∧
      buf.entries =
        [{ Name := "user.json", Data := u }, { Name := "tracks.json", Data := t },
          { Name := "playlists.json", Data := p }, { Name := "artists.json", Data := a },
          { Name := "albums.json", Data := l }] ∧
      buf.closed = true :=
  Json_archive_entries sampleEncoder noZipFault sampleZipper rfl

/-- Claim C8. `Json` fails atomically.  It returns a non-nil buffer if and only if it
returns a nil error.  If a document fails to serialise, `Json` returns a nil
buffer with the error of the first document that fails, and the archive writer
was never created.  If an operation on the archive (creating an entry, writing
it, finalising) fails with `e`, `Json` returns a nil buffer with `e`. -/
theorem Json_fails_atomically (enc : JsonEncoder) (zf : ZipFaults) (z : zipper) :
    ((zipper.Json enc zf z).buf ≠ none ↔ (zipper.Json enc zf z).err = none) ∧
      (∀ e rest, (marshalErrors enc z).filterMap id = e :: rest →
        zipper.Json enc zf z = { buf := none, err := some e, writer := none }) ∧
      (∀ w, (zipper.Json enc zf z).writer = some w → ∀ ev ∈ w.ops, ∀ e, ev.err = some e →
        (zipper.Json enc zf z).buf = none ∧ (zipper.Json enc zf z).err = some e) := by
  rcases Json_cases enc zf z with ⟨e1, rest1, hj, hfirst⟩ | ⟨u, t, p, a, l, hm, hcase⟩
  · refine ⟨by rw [hj]; simp, ?_, ?_⟩
    · intro e rest he
      rw [hfirst] at he
      simp only [List.cons.injEq] at he
      rw [hj, he.1]
    · intro w hw
      rw [hj] at hw
      simp at hw
  · have hnone : (marshalErrors enc z).filterMap id = [] := by
      simp [marshalErrors, hm.1, hm.2.1, hm.2.2.1, hm.2.2.2.1, hm.2.2.2.2, Reply.err]
    rcases hcase with ⟨e1, w1, hj, hf⟩ | ⟨w1, hj, _, _, hclean⟩
    · refine ⟨by rw [hj]; simp, ?_, ?_⟩
      · intro e rest he
        rw [hnone] at he
        simp at he
      · intro w hw ev hev e he
        rw [hj] at hw ⊢
        simp only [Option.some.injEq] at hw
        rw [← hw] at hev
        rw [hf ev hev e he]
        exact ⟨rfl, rfl⟩
    · refine ⟨by rw [hj]; simp, ?_, ?_⟩
      · intro e rest he
        rw [hnone] at he
        simp at he
      · intro w hw ev hev e he
        rw [hj] at hw
        simp only [Option.some.injEq] at hw
        rw [← hw] at hev
        rw [hclean ev hev] at he
        simp at he

theorem Json_fails_atomically_witness :
    zipper.Json playlistsUnencodable noZipFault sampleZipper =
        { buf := none, err := some (GoError.failure 1), writer := none } ∧
      (zipper.Json sampleEncoder closeFails sampleZipper).buf = none ∧
      (zipper.Json sampleEncoder closeFails sampleZipper).err = some (GoError.failure 2) :=
  ⟨(Json_fails_atomically playlistsUnencodable noZipFault sampleZipper).2.1
      (GoError.failure 1) [] rfl,
    (Json_fails_atomically sampleEncoder closeFails sampleZipper).2.2
      { entries :=
          [{ Name := "user.json", Data := "(user)" }, { Name := "tracks.json", Data := "(tracks)" },
            { Name := "playlists.json", Data := "null" },
            { Name := "artists.json", Data := "(artists)" },
            { Name := "albums.json", Data := "(albums)" }],
        closed := false,
        ops :=
          [{ op := ZipOp.Create "user.json", err := none },
            { op := ZipOp.Write "(user)", err := none },
            { op := ZipOp.Create "tracks.json", err := none },
            { op := ZipOp.Write "(tracks)", err := none },
            { op := ZipOp.Create "playlists.json", err := none },
            { op := ZipOp.Write "null", err := none },
            { op := ZipOp.Create "artists.json", err := none },
            { op := ZipOp.Write "(artists)", err := none },
            { op := ZipOp.Create "albums.json", err := none },
            { op := ZipOp.Write "(albums)", err := none },
            { op := ZipOp.Close, err := some (GoError.failure 2) }] }
      (by decide) { op := ZipOp.Close, err := some (GoError.failure 2) } (by decide)
      (GoError.failure 2) rfl⟩

end Serializer

/-! ## The download handler -/

section Download

/-- Claim C9, the code at two failing requests.  (1) The listing of the saved tracks is
refused with HTTP 401 and every other call is served: the handler logs the
error and redirects with status 500, then goes on, sets
`Content-Type: application/zip` and writes a five-entry archive whose
`tracks.json` is the document of the nil slice.  (2) Every fetch succeeds and
the playlists cannot be serialised: `Json` returns a nil buffer, the handler
logs, redirects, sets the headers and stops in `buf.Bytes()` on the nil buffer. -/
theorem downloadJson_goes_on_after_error :
    (∃ handled buf,
      (router.downloadJson (fun _ => sampleClient tracksRefused) sampleEncoder noZipFault none 5
          (some "token") freshWorld).1 = some handled ∧
        handled.actions =
          [HttpAction.LogPrintln (GoError.failure 401), HttpAction.Redirect "/" 500,
            HttpAction.HeaderSet "Content-Type" "application/zip",
            HttpAction.HeaderSet "Content-Disposition" "attachment; filename=\"library.zip\"",
            HttpAction.Write buf] ∧
        buf.entries =
          [{ Name := "user.json", Data := "(user)" }, { Name := "tracks.json", Data := "null" },
            { Name := "playlists.json", Data := "(playlists)" },
            { Name := "artists.json", Data := "(artists)" },
            { Name := "albums.json", Data := "(albums)" }] ∧
        handled.ending = HandlerEnd.returned) ∧
      (router.downloadJson (fun _ => sampleClient noFault) playlistsUnencodable noZipFault none 5
          (some "token") freshWorld).1 =
        some
          { actions :=
              [HttpAction.LogPrintln (GoError.failure 1), HttpAction.Redirect "/" 500,
                HttpAction.HeaderSet "Content-Type" "application/zip",
                HttpAction.HeaderSet "Content-Disposition"
                  "attachment; filename=\"library.zip\""],
            ending := HandlerEnd.nilDereference } :=
  ⟨⟨_, _, rfl, rfl, rfl, rfl⟩, rfl⟩

end Download

end SpoToFile
